import Mathlib

/-!
Verification of the packet plane of a loopback internetwork simulation
(`pdu.py`, `router.py`, `tcp_client.py`, `tcp_server.py`, `graph.py`).

Modelling conventions (shallow embedding of the Python source):
* Python `bytes` values are `List Nat` (each element a byte value).
* Python `str` values carried inside datagrams are modelled by their byte
  sequences (`List Nat`); `str.encode` / `bytes.decode` become the identity.
  HTTP request/response text handled by the server is modelled as `List Char`.
* Dotted-quad address strings are modelled by the structure `IPv4` holding the
  four octet values; `socket.inet_aton` / `socket.inet_ntoa` become the
  conversions below (exact on canonical dotted quads, the only addresses the
  program constructs).
* `struct.pack`/`struct.unpack` with the formats used by the source become
  explicit big-endian byte (de)serialisation; `struct.error` on a too-short
  buffer is the `MalformedHeader` decode failure named by the documentation.
* Machine integers do not overflow silently: `struct.pack` raises on
  out-of-range values, so the encoders below reduce modulo the field width and
  the well-formedness predicates (`wf`) state the in-range side conditions
  under which packing is exact.
-/

namespace NetSim

/-- A dotted-quad IPv4 address `o1.o2.o3.o4`. -/
structure IPv4 where
  o1 : Nat
  o2 : Nat
  o3 : Nat
  o4 : Nat
deriving DecidableEq, Repr

/-- A canonical dotted quad has octets below 256 (`socket.inet_aton` rejects
anything else). -/
def IPv4.wf (a : IPv4) : Prop :=
  a.o1 < 256 ∧ a.o2 < 256 ∧ a.o3 < 256 ∧ a.o4 < 256

/-- `socket.inet_aton`: an address as its 4 network-order octets. -/
def inet_aton (a : IPv4) : List Nat :=
  [a.o1 % 256, a.o2 % 256, a.o3 % 256, a.o4 % 256]

/-- Big-endian 2-byte encoding (`struct` format `H`). -/
def u16 (n : Nat) : List Nat := [n / 256 % 256, n % 256]

/-- Big-endian 4-byte encoding (`struct` format `L`, network order). -/
def u32 (n : Nat) : List Nat :=
  [n / 16777216 % 256, n / 65536 % 256, n / 256 % 256, n % 256]

/-- Read exactly `n` leading elements, as `struct.unpack` does on a slice:
`none` models `struct.error` when fewer than `n` octets are available. -/
def takeExact : Nat → List Nat → Option (List Nat × List Nat)
  | 0, l => some ([], l)
  | _ + 1, [] => none
  | n + 1, x :: l => (takeExact n l).map (fun p => (x :: p.1, p.2))

/-- Indexing into an unpacked byte vector (total; all uses are in range). -/
def byteAt : List Nat → Nat → Nat
  | [], _ => 0
  | b :: _, 0 => b
  | _ :: l, n + 1 => byteAt l n

/-- The decode failure raised when a buffer is shorter than a fixed header
(`struct.error` in the source, `MalformedHeader` in its documentation). -/
inductive DecodeError where
  | malformedHeader
deriving DecidableEq, Repr

/-! ### `pdu.IPHeader` -/

/-- `pdu.IPHeader`: the plain 20-octet IP header. -/
structure IPHeader where
  ip_ver : Nat
  ip_ihl : Nat
  ip_tos : Nat
  ip_tot_len : Nat
  ip_id : Nat
  ip_frag_off : Nat
  ip_ttl : Nat
  ip_proto : Nat
  ip_check : Nat
  ip_saddr : IPv4
  ip_daddr : IPv4
deriving DecidableEq, Repr

/-- `IPHeader.from_bytes`: `struct.unpack('!BBHHHBBH4s4s', data[0:20])` and the
shift/mask recovery of version and IHL. -/
def IPHeader.from_bytes (data : List Nat) : Except DecodeError IPHeader :=
  match takeExact 20 data with
  | none => .error .malformedHeader
  | some (b, _rest) =>
    .ok { ip_ver := byteAt b 0 / 16 % 16
          ip_ihl := byteAt b 0 % 16
          ip_tos := byteAt b 1
          ip_tot_len := byteAt b 2 * 256 + byteAt b 3
          ip_id := byteAt b 4 * 256 + byteAt b 5
          ip_frag_off := byteAt b 6 * 256 + byteAt b 7
          ip_ttl := byteAt b 8
          ip_proto := byteAt b 9
          ip_check := byteAt b 10 * 256 + byteAt b 11
          ip_saddr := ⟨byteAt b 12, byteAt b 13, byteAt b 14, byteAt b 15⟩
          ip_daddr := ⟨byteAt b 16, byteAt b 17, byteAt b 18, byteAt b 19⟩ }

/-! ### `pdu.LSADatagram` -/

/-- `pdu.LSADatagram`: an IP header followed by the advertising-router
address (4 octets), the LSA sequence number (2 octets) and the textual LSA
body (modelled as its byte sequence). -/
structure LSADatagram where
  ip_ver : Nat
  ip_ihl : Nat
  ip_tos : Nat
  ip_tot_len : Nat
  ip_id : Nat
  ip_frag_off : Nat
  ip_ttl : Nat
  ip_proto : Nat
  ip_check : Nat
  ip_saddr : IPv4
  ip_daddr : IPv4
  adv_rtr : IPv4
  lsa_seq_num : Nat
  lsa_data : List Nat
deriving DecidableEq, Repr

/-- Field ranges accepted by `struct.pack('!BBHHHBBH4s4s')` /
`struct.pack('!4sH')` and `socket.inet_aton`. -/
def LSADatagram.wf (d : LSADatagram) : Prop :=
  d.ip_ver < 16 ∧ d.ip_ihl < 16 ∧ d.ip_tos < 256 ∧ d.ip_tot_len < 65536 ∧
  d.ip_id < 65536 ∧ d.ip_frag_off < 65536 ∧ d.ip_ttl < 256 ∧
  d.ip_proto < 256 ∧ d.ip_check < 65536 ∧ d.ip_saddr.wf ∧ d.ip_daddr.wf ∧
  d.adv_rtr.wf ∧ d.lsa_seq_num < 65536

/-- `LSADatagram.to_bytes`: IP header, then `!4sH` LSA header, then body. -/
def LSADatagram.to_bytes (d : LSADatagram) : List Nat :=
  ((d.ip_ver * 16 + d.ip_ihl) % 256 :: d.ip_tos % 256 ::
    (u16 d.ip_tot_len ++ u16 d.ip_id ++ u16 d.ip_frag_off)) ++
  (d.ip_ttl % 256 :: d.ip_proto % 256 :: u16 d.ip_check) ++
  inet_aton d.ip_saddr ++ inet_aton d.ip_daddr ++
  inet_aton d.adv_rtr ++ u16 d.lsa_seq_num ++ d.lsa_data

/-- `LSADatagram.from_bytes`: `IPHeader.from_bytes(data)`, then
`struct.unpack('!4sH', data[20:26])`, then `data[26:]` as the body. -/
def LSADatagram.from_bytes (data : List Nat) : Except DecodeError LSADatagram :=
  match IPHeader.from_bytes data, takeExact 6 (data.drop 20) with
  | .ok h, some (b, rest) =>
    .ok { ip_ver := h.ip_ver, ip_ihl := h.ip_ihl, ip_tos := h.ip_tos
          ip_tot_len := h.ip_tot_len, ip_id := h.ip_id
          ip_frag_off := h.ip_frag_off, ip_ttl := h.ip_ttl
          ip_proto := h.ip_proto, ip_check := h.ip_check
          ip_saddr := h.ip_saddr, ip_daddr := h.ip_daddr
          adv_rtr := ⟨byteAt b 0, byteAt b 1, byteAt b 2, byteAt b 3⟩
          lsa_seq_num := byteAt b 4 * 256 + byteAt b 5
          lsa_data := rest }
  | _, _ => .error .malformedHeader

/-! ### `pdu.HTTPDatagram` -/

/-- `pdu.HTTPDatagram`: an IP header followed by a 24-octet pseudo-TCP
header (`!HHLLBBHHH4s`, the trailing 4 octets being the non-standard
`next_hop` address) and the payload. Its constructor always passes `0` as
the IP identification field, so `ip_id` is omitted (identically zero).
`next_hop` is modelled as an address; the source's `''` placeholder is never
transmitted (`inet_aton` would reject it). -/
structure HTTPDatagram where
  ip_ver : Nat
  ip_ihl : Nat
  ip_tos : Nat
  ip_tot_len : Nat
  ip_frag_off : Nat
  ip_ttl : Nat
  ip_proto : Nat
  ip_check : Nat
  ip_saddr : IPv4
  ip_daddr : IPv4
  source_port : Nat
  dest_port : Nat
  seq_num : Nat
  ack_num : Nat
  data_offset : Nat
  reserved : Nat
  flags : Nat
  window_size : Nat
  checksum : Nat
  urgent_pointer : Nat
  next_hop : IPv4
  data : List Nat
deriving DecidableEq, Repr

/-- Field ranges accepted by the two `struct.pack` formats and
`socket.inet_aton`. -/
def HTTPDatagram.wf (d : HTTPDatagram) : Prop :=
  d.ip_ver < 16 ∧ d.ip_ihl < 16 ∧ d.ip_tos < 256 ∧ d.ip_tot_len < 65536 ∧
  d.ip_frag_off < 65536 ∧ d.ip_ttl < 256 ∧ d.ip_proto < 256 ∧
  d.ip_check < 65536 ∧ d.ip_saddr.wf ∧ d.ip_daddr.wf ∧
  d.source_port < 65536 ∧ d.dest_port < 65536 ∧
  d.seq_num < 4294967296 ∧ d.ack_num < 4294967296 ∧
  d.data_offset < 16 ∧ d.reserved < 16 ∧ d.flags < 256 ∧
  d.window_size < 65536 ∧ d.checksum < 65536 ∧ d.urgent_pointer < 65536 ∧
  d.next_hop.wf

/-- `HTTPDatagram.to_bytes`: IP header (with identification packed as the
literal `0`), then the pseudo-TCP header, then the payload. -/
def HTTPDatagram.to_bytes (d : HTTPDatagram) : List Nat :=
  ((d.ip_ver * 16 + d.ip_ihl) % 256 :: d.ip_tos % 256 ::
    (u16 d.ip_tot_len ++ u16 0 ++ u16 d.ip_frag_off)) ++
  (d.ip_ttl % 256 :: d.ip_proto % 256 :: u16 d.ip_check) ++
  inet_aton d.ip_saddr ++ inet_aton d.ip_daddr ++
  u16 d.source_port ++ u16 d.dest_port ++ u32 d.seq_num ++ u32 d.ack_num ++
  ((d.data_offset * 16 + d.reserved) % 256 :: d.flags % 256 ::
    (u16 d.window_size ++ u16 d.checksum ++ u16 d.urgent_pointer)) ++
  inet_aton d.next_hop ++ d.data

/-- `HTTPDatagram.from_bytes`: `struct.unpack('!BBHHHBBH4s4s', data[0:20])`,
`struct.unpack('!HHLLBBHHH4s', data[20:44])`, payload `data[44:]`. The
identification word (octets 4–5) is read and discarded, as in the source. -/
def HTTPDatagram.from_bytes (data : List Nat) : Except DecodeError HTTPDatagram :=
  match takeExact 20 data, takeExact 24 (data.drop 20) with
  | some (b, _), some (t, rest) =>
    .ok { ip_ver := byteAt b 0 / 16 % 16
          ip_ihl := byteAt b 0 % 16
          ip_tos := byteAt b 1
          ip_tot_len := byteAt b 2 * 256 + byteAt b 3
          ip_frag_off := byteAt b 6 * 256 + byteAt b 7
          ip_ttl := byteAt b 8
          ip_proto := byteAt b 9
          ip_check := byteAt b 10 * 256 + byteAt b 11
          ip_saddr := ⟨byteAt b 12, byteAt b 13, byteAt b 14, byteAt b 15⟩
          ip_daddr := ⟨byteAt b 16, byteAt b 17, byteAt b 18, byteAt b 19⟩
          source_port := byteAt t 0 * 256 + byteAt t 1
          dest_port := byteAt t 2 * 256 + byteAt t 3
          seq_num := byteAt t 4 * 16777216 + byteAt t 5 * 65536 +
                     byteAt t 6 * 256 + byteAt t 7
          ack_num := byteAt t 8 * 16777216 + byteAt t 9 * 65536 +
                     byteAt t 10 * 256 + byteAt t 11
          data_offset := byteAt t 12 / 16 % 16
          reserved := byteAt t 12 % 16
          flags := byteAt t 13
          window_size := byteAt t 14 * 256 + byteAt t 15
          checksum := byteAt t 16 * 256 + byteAt t 17
          urgent_pointer := byteAt t 18 * 256 + byteAt t 19
          next_hop := ⟨byteAt t 20, byteAt t 21, byteAt t 22, byteAt t 23⟩
          data := rest }
  | _, _ => .error .malformedHeader

/-! ### `router.Router.forward_datagram`: longest-prefix match -/

/-- A forwarding-table key as `Router.forward_datagram` inspects it: a string
containing `'/'` (CIDR form `A.B.C.D/P`) or a bare string without one. -/
inductive NetKey where
  | cidr (addr : IPv4) (plen : Nat)
  | host (addr : IPv4)
deriving DecidableEq, Repr

/-- The 32-character string `''.join(f'{int(octet):08b}' for octet in ...)`,
as a bit list, most significant bit of the first octet first (exact for
canonical addresses, whose octets are below 256). -/
def IPv4.bits (a : IPv4) : List Bool :=
  ((List.range 8).map fun i => a.o1.testBit (7 - i)) ++
  ((List.range 8).map fun i => a.o2.testBit (7 - i)) ++
  ((List.range 8).map fun i => a.o3.testBit (7 - i)) ++
  ((List.range 8).map fun i => a.o4.testBit (7 - i))

/-- The `for index in range(prefix_length)` loop: consecutive equal leading
bits, stopping at the first mismatch. -/
def countLeadingMatches : List Bool → List Bool → Nat
  | a :: as, b :: bs => if a = b then 1 + countLeadingMatches as bs else 0
  | _, _ => 0

/-- Matching bits of one forwarding-table key against the destination.
`none` models the two ways the loop body skips a key: a key without `'/'`
never enters the `if '/' in network` branch, and a prefix length above 32
raises `IndexError` at bit 32, caught by the surrounding `except`, before
`max_length` is updated. -/
def matchingBits (dest : IPv4) : NetKey → Option Nat
  | .host _ => none
  | .cidr a p =>
    if p ≤ 32 then some (countLeadingMatches (dest.bits.take p) (a.bits.take p))
    else none

/-- The accumulator pass of the longest-prefix loop, over a per-key
matching-bit measure `mb`: `longest_prefix` starts as `None` and
`max_length` as `-1`; a key replaces them only when its measure strictly
exceeds `max_length`. -/
def lpmGo (mb : NetKey → Option Nat) :
    List NetKey → Option NetKey × Int → Option NetKey × Int
  | [], acc => acc
  | k :: ks, acc =>
    lpmGo mb ks
      (match mb k with
       | none => acc
       | some m => if (m : Int) > acc.2 then (some k, (m : Int)) else acc)

/-- `Router.forward_datagram` lines 253–276: the selected forwarding-table
key for a destination, iterating the keys in table order. -/
def longestPrefixMatch (dest : IPv4) (keys : List NetKey) : Option NetKey :=
  (lpmGo (matchingBits dest) keys (none, -1)).1

/-- Modelled from the claim's words (for refutation only, not from the
source): the measure C2 asserts, in which a bare host key is matched as a
`/32` prefix. -/
def claimedMatchingBits (dest : IPv4) : NetKey → Option Nat
  | .host a => some (countLeadingMatches dest.bits a.bits)
  | .cidr a p =>
    if p ≤ 32 then some (countLeadingMatches (dest.bits.take p) (a.bits.take p))
    else none

/-- Modelled from the claim's words (for refutation only): the selection C2
asserts, with host keys matched as `/32` prefixes. -/
def claimedLongestPrefixMatch (dest : IPv4) (keys : List NetKey) : Option NetKey :=
  (lpmGo (claimedMatchingBits dest) keys (none, -1)).1

/-! ### `router.Router.forward_datagram`: re-emitted datagram -/

/-- `Router.forward_datagram` lines 287–298: the datagram re-emitted after a
successful longest-prefix match. Only the nine listed fields are copied from
the received datagram and `next_hop` is set to the peer address of the chosen
outgoing interface (`self.router_interfaces[fwd_int][1]`); every other field
takes the `HTTPDatagram` constructor default. -/
def mkForwardedDatagram (d : HTTPDatagram) (peer : IPv4) : HTTPDatagram :=
  { ip_ver := 4, ip_ihl := 5, ip_tos := 0, ip_tot_len := 40, ip_frag_off := 0,
    ip_ttl := 255, ip_proto := 255, ip_check := 0,
    ip_saddr := d.ip_saddr, ip_daddr := d.ip_daddr,
    source_port := d.source_port, dest_port := d.dest_port,
    seq_num := d.seq_num, ack_num := d.ack_num,
    data_offset := 5, reserved := 0, flags := d.flags,
    window_size := d.window_size, checksum := 0, urgent_pointer := 0,
    next_hop := peer, data := d.data }

/-! ### Transport endpoints (`tcp_client.Client`, `tcp_server.Server`) -/

/-- The `HTTPDatagram(...)` call as the endpoints make it: only these keyword
arguments are passed, every other field takes the Python constructor default
(`ip_ver=4, ip_ihl=5, ip_tos=0, ip_tot_len=40, ip_frag_off=0, ip_ttl=255,
ip_proto=IPPROTO_RAW=255, ip_check=0, data_offset=5, reserved=0, checksum=0,
urgent_pointer=0`). -/
def mkEndpointDatagram (source_ip dest_ip : IPv4)
    (source_port dest_port seq_num ack_num flags window_size : Nat)
    (next_hop : IPv4) (data : List Nat) : HTTPDatagram :=
  { ip_ver := 4, ip_ihl := 5, ip_tos := 0, ip_tot_len := 40, ip_frag_off := 0,
    ip_ttl := 255, ip_proto := 255, ip_check := 0,
    ip_saddr := source_ip, ip_daddr := dest_ip,
    source_port := source_port, dest_port := dest_port,
    seq_num := seq_num, ack_num := ack_num,
    data_offset := 5, reserved := 0, flags := flags,
    window_size := window_size, checksum := 0, urgent_pointer := 0,
    next_hop := next_hop, data := data }

/-- The mutable locals of `Client.process_response_segments`: the next
sequence number to use on emitted ACKs, `ack_num` (the next expected
segment), the reassembled `response`, and the loop-controlling `flags`. -/
structure ReceiverState where
  seq_num : Nat
  ack_num : Nat
  response : List Nat
  flags : Nat
deriving DecidableEq, Repr

/-- One received frame processed by the body of
`Client.process_response_segments` (`tcp_client.py` lines 180–197): accept
when addressed to this client (`ip_daddr` and `next_hop` both equal to
`client_ip`) with flags in `{17, 24, 25}`; append the payload and advance
`ack_num` only when `seq_num` equals the expected `ack_num`; in either case
reply with a cumulative ACK (flags 16, payload `'ACK'`) carrying the
(possibly updated) `ack_num`. Returns the new state and the emitted ACK. -/
def clientReceiveStep (client_ip gateway : IPv4) (client_port window_size : Nat)
    (st : ReceiverState) (d : HTTPDatagram) :
    ReceiverState × Option HTTPDatagram :=
  if d.ip_daddr = client_ip then
    if d.next_hop = client_ip ∧ (d.flags = 17 ∨ d.flags = 24 ∨ d.flags = 25) then
      let st' :=
        if d.seq_num = st.ack_num then
          { st with ack_num := st.ack_num + 1,
                    response := st.response ++ d.data,
                    flags := d.flags }
        else st
      (st', some (mkEndpointDatagram client_ip d.ip_saddr client_port
        d.source_port st.seq_num st'.ack_num 16 window_size gateway
        [65, 67, 75]))
    else (st, none)
  else (st, none)

/-- The mutable locals of a Go-Back-N sender's ACK loop: `base` (oldest
unacknowledged segment index), `seq_num` (next sequence number to send) and
the persistent `flags` local. -/
structure SenderState where
  base : Nat
  seq_num : Nat
  flags : Nat
deriving DecidableEq, Repr

/-- One received frame processed by the ACK loop of
`Client.send_request_segments` (`tcp_client.py` lines 152–165): on a valid
cumulative ACK (flags 16, `next_hop` = own address, source = server,
`ack_num = base + init_seq_num + 1`), if `base + window_size` is still a
segment index, send that segment — promoting `flags` to 25 when
`base == min(len(segments), base + window_size) - 1` — and advance
`seq_num`; in every valid-ACK case advance `base`. Returns the new state
and the transmitted segment datagram, if any. -/
def clientAckStep (client_ip server_ip gateway : IPv4)
    (client_port server_port ack_num window_size init_seq_num : Nat)
    (segments : List (List Nat)) (st : SenderState) (d : HTTPDatagram) :
    SenderState × Option HTTPDatagram :=
  if d.next_hop = client_ip ∧ d.ip_saddr = server_ip ∧ d.flags = 16 ∧
     d.ack_num = st.base + init_seq_num + 1 then
    if st.base + window_size < segments.length then
      let segment := segments.getD (st.base + window_size) []
      let flags' :=
        if (st.base : Int) =
            min (segments.length : Int) ((st.base : Int) + (window_size : Int)) - 1
        then 25 else st.flags
      (⟨st.base + 1, st.seq_num + 1, flags'⟩,
        some (mkEndpointDatagram client_ip server_ip client_port server_port
          st.seq_num ack_num flags' window_size gateway segment))
    else (⟨st.base + 1, st.seq_num, st.flags⟩, none)
  else (st, none)

/-- One received frame processed by the ACK loop of `Server.process_request`
(`tcp_server.py` lines 305–318): identical to the client's ACK loop except
that the FIN promotion additionally requires the current `flags` to be 24. -/
def serverAckStep (server_ip dest_ip gateway : IPv4)
    (server_port dest_port ack_num window_size init_seq_num : Nat)
    (segments : List (List Nat)) (st : SenderState) (d : HTTPDatagram) :
    SenderState × Option HTTPDatagram :=
  if d.next_hop = server_ip ∧ d.ip_saddr = dest_ip ∧ d.flags = 16 ∧
     d.ack_num = st.base + init_seq_num + 1 then
    if st.base + window_size < segments.length then
      let segment := segments.getD (st.base + window_size) []
      let flags' :=
        if (st.base : Int) =
            min (segments.length : Int) ((st.base : Int) + (window_size : Int)) - 1
           ∧ st.flags = 24
        then 25 else st.flags
      (⟨st.base + 1, st.seq_num + 1, flags'⟩,
        some (mkEndpointDatagram server_ip dest_ip server_port dest_port
          st.seq_num ack_num flags' window_size gateway segment))
    else (⟨st.base + 1, st.seq_num, st.flags⟩, none)
  else (st, none)

/-! ### `tcp_server.Server.process_request`: HTTP handler -/

/-- Python `str` text handled by the server, as its character sequence. -/
abbrev Str := List Char

/-- A Python exception escaping `process_request`. -/
inductive PyError where
  | nameError
  | indexError
  | keyError
  | valueError
deriving DecidableEq, Repr

deriving instance DecidableEq for Except

/-- One entry of the `resources.json` store. -/
structure Resource where
  last_modified : Str
  file_size : Nat
  etag : Str
  data : Str
deriving DecidableEq, Repr

/-- `str.split('\r\n')`. -/
def splitOnCRLF : Str → List Str
  | [] => [[]]
  | '\r' :: '\n' :: rest => [] :: splitOnCRLF rest
  | c :: rest =>
    match splitOnCRLF rest with
    | [] => [[c]]
    | s :: ss => (c :: s) :: ss

/-- `str.split()` with no argument: split on whitespace runs, dropping empty
pieces. -/
def pySplitWs (s : Str) : List Str :=
  (s.splitOnP fun c => c.isWhitespace).filter (· ≠ [])

/-- `str.strip()`. -/
def stripWs (s : Str) : Str :=
  ((s.dropWhile Char.isWhitespace).reverse.dropWhile Char.isWhitespace).reverse

/-- `line.split(':', 1)[1]`: everything after the first colon (callers
guarantee one exists). -/
def afterFirstColon (s : Str) : Str :=
  (s.dropWhile (· ≠ ':')).tail

/-- The `for line in request_lines[1:]` scan: the stripped value of the first
line starting with `If-Modified-Since:`, if any. -/
def findIMS : List Str → Option Str
  | [] => none
  | l :: ls =>
    if "If-Modified-Since:".data.isPrefixOf l
    then some (stripWs (afterFirstColon l))
    else findIMS ls

/-- Python dict lookup `resources[name]` on the resource store (insertion
order, first match). -/
def lookupStore (res : List (Str × Resource)) (k : Str) : Option Resource :=
  (res.find? fun p => p.1 == k).map Prod.snd

/-- Python dict assignment `resources[name] = entry`. -/
def setStore : List (Str × Resource) → Str → Resource → List (Str × Resource)
  | [], k, v => [(k, v)]
  | (k', v') :: rest, k, v =>
    if k' == k then (k, v) :: rest else (k', v') :: setStore rest k v

/-- The response-computation part of `Server.process_request`
(`tcp_server.py` lines 201–275): from the raw request text and the resource
store, the response text, the `flags` local that will be used for sending
(17 unless a branch sets 24), and the possibly updated store.
`parseDate` abstracts `datetime.strptime` on the RFC-1123 date strings
(assumed well formed, as the source would otherwise raise); `now` and `etag`
abstract `datetime.now()` and `newRandomETag()` in the POST branch.
`.error .nameError` models the `NameError` raised at line 274, where the
plain-GET branch reads `resource_info`, a local only ever assigned inside
the `if modified_since:` branch (line 241). -/
def processRequest (parseDate : Str → Nat) (now etag : Str)
    (resources : List (Str × Resource)) (request : Str) :
    Except PyError ((Str × Nat) × List (Str × Resource)) :=
  let request_lines := splitOnCRLF request
  match pySplitWs (request_lines.headD []) with
  | [] => .error .indexError
  | [_] => .error .indexError
  | method :: resource0 :: _ =>
    let resource :=
      if (lookupStore resources resource0) ≠ none ∧ method = "POST".data
      then "/new_resource.html".data else resource0
    let modified_since := findIMS request_lines.tail
    if method ≠ "GET".data ∧ method ≠ "POST".data then
      .ok (("HTTP/1.1 400 Bad Request\r\n\r\nInvalid Request".data, 17),
        resources)
    else if lookupStore resources resource = none ∧ method = "GET".data then
      .ok (("HTTP/1.1 404 Not Found\r\n\r\nResource Not Found".data, 17),
        resources)
    else
      match modified_since with
      | some ms =>
        if ms ≠ [] then
          match lookupStore resources resource with
          | none => .error .keyError
          | some resource_info =>
            if parseDate resource_info.last_modified ≤ parseDate ms then
              .ok (("HTTP/1.1 304 Not Modified\r\n\r\n".data, 17), resources)
            else
              .ok ((("HTTP/1.1 200 OK\r\nContent-Length: ".data ++
                (Nat.repr resource_info.data.length).data ++
                "\r\n\r\n".data ++ resource_info.data, 24)), resources)
        else if method = "POST".data then
          let post_content := request_lines.getLastD []
          .ok ((("HTTP/1.1 200 OK\r\nContent-Type: text/plain\r\nPOST request successfully received.\r\n\r\n".data, 24)),
            setStore resources resource
              ⟨now, post_content.length, etag, post_content⟩)
        else .error .nameError
      | none =>
        if method = "POST".data then
          let post_content := request_lines.getLastD []
          .ok ((("HTTP/1.1 200 OK\r\nContent-Type: text/plain\r\nPOST request successfully received.\r\n\r\n".data, 24)),
            setStore resources resource
              ⟨now, post_content.length, etag, post_content⟩)
        else .error .nameError

/-- The flags placed on segment `i` of an `n`-segment response during the
send loop of `Server.process_request` (lines 286–287): the persistent
`flags` local is promoted to 25 on the last segment only when it currently
equals 24. -/
def burstSegmentFlags (flags0 i n : Nat) : Nat :=
  if i = n - 1 ∧ flags0 = 24 then 25 else flags0

/-! ### `router.Router.process_link_state_advertisement` -/

/-- Python dict lookup on an association list (keys unique by construction;
first match). -/
def lookupA {α β : Type} [DecidableEq α] : List (α × β) → α → Option β
  | [], _ => none
  | (k', v) :: rest, k => if k' = k then some v else lookupA rest k

/-- Python dict assignment `m[k] = v`: replace in place, else append. -/
def setA {α β : Type} [DecidableEq α] : List (α × β) → α → β → List (α × β)
  | [], k, v => [(k, v)]
  | (k', v') :: rest, k, v =>
    if k' = k then (k, v) :: rest else (k', v') :: setA rest k v

/-- `line.split(',')`. -/
def splitOnComma : Str → List Str
  | [] => [[]]
  | ',' :: rest => [] :: splitOnComma rest
  | c :: rest =>
    match splitOnComma rest with
    | [] => [[c]]
    | s :: ss => (c :: s) :: ss

/-- Decimal digits to a number (`none` when empty or non-digit). -/
def digitsToNat (s : Str) : Option Nat :=
  if s ≠ [] ∧ s.all Char.isDigit
  then some (s.foldl (fun a c => a * 10 + (c.toNat - 48)) 0)
  else none

/-- Python `int(str)` on an already-stripped string: optional sign and
decimal digits, `none` modelling `ValueError`. -/
def pyInt : Str → Option Int
  | '-' :: rest => (digitsToNat rest).map (fun n => -(n : Int))
  | '+' :: rest => (digitsToNat rest).map (fun n => (n : Int))
  | s => (digitsToNat s).map (fun n => (n : Int))

/-- One line of `Router.update_lsdb`:
`(neighbor.strip(), int(cost.strip()), interface.strip())`, `ValueError` if
the line does not split into exactly three comma-separated fields or the
cost is not an integer. -/
def parseLSALine (l : Str) : Except PyError (Str × Int × Str) :=
  match splitOnComma l with
  | [n, c, i] =>
    match pyInt (stripWs c) with
    | some v => .ok (stripWs n, v, stripWs i)
    | none => .error .valueError
  | _ => .error .valueError

/-- `Router.update_lsdb` body parsing: split the LSA text on CRLF and parse
every line. -/
def parseLSABody (body : Str) : Except PyError (List (Str × Int × Str)) :=
  (splitOnCRLF body).mapM parseLSALine

/-- The LSA-relevant state of a router: `router_lsa_num` (highest sequence
number seen per advertising router) and the LSDB. -/
structure RouterLSAState where
  router_lsa_num : List (IPv4 × Nat)
  lsdb : List (IPv4 × List (Str × Int × Str))
deriving DecidableEq, Repr

/-- The acceptance test of `Router.process_link_state_advertisement`
line 227: `adv_rtr not in self.router_lsa_num or
self.router_lsa_num[adv_rtr] < lsa_seq_num`. -/
def lsaIsNew (st : RouterLSAState) (adv : IPv4) (seq : Nat) : Bool :=
  match lookupA st.router_lsa_num adv with
  | none => true
  | some m => decide (m < seq)

/-- `Router.process_link_state_advertisement` (`router.py` lines 222–231) on
one decoded LSA: when the LSA is newer and not the router's own, reset the
quiescence timer (the returned `Bool`), record its sequence number, replace
the LSDB entry with the parsed body, and flood the same
`(adv_rtr, seq, body)` on the other interfaces (the returned `Option`);
otherwise do nothing. A body that fails to parse models the `ValueError`
escaping `update_lsdb` after the timer and sequence number were already
updated (lines 228–229 precede line 230), so the LSDB keeps its old entry
and nothing is flooded. -/
def processLSA (selfId : IPv4) (st : RouterLSAState) (adv : IPv4) (seq : Nat)
    (body : Str) : RouterLSAState × Bool × Option (IPv4 × Nat × Str) :=
  if lsaIsNew st adv seq = true ∧ adv ≠ selfId then
    let map' := setA st.router_lsa_num adv seq
    match parseLSABody body with
    | .ok entries => (⟨map', setA st.lsdb adv entries⟩, true, some (adv, seq, body))
    | .error _ => (⟨map', st.lsdb⟩, true, none)
  else (st, false, none)

/-- A sequence of LSAs processed in arrival order. -/
def processLSAList (selfId : IPv4) :
    RouterLSAState → List (IPv4 × Nat × Str) → RouterLSAState
  | st, [] => st
  | st, (adv, seq, body) :: rest =>
    processLSAList selfId (processLSA selfId st adv seq body).1 rest

/-- The sequence numbers accepted from origin `a` along a run (those passing
the line-227 test with `adv ≠ selfId`). -/
def acceptedSeqs (selfId : IPv4) :
    RouterLSAState → List (IPv4 × Nat × Str) → IPv4 → List Nat
  | _, [], _ => []
  | st, (adv, seq, body) :: rest, a =>
    (if (lsaIsNew st adv seq = true ∧ adv ≠ selfId) ∧ adv = a then [seq]
     else []) ++
    acceptedSeqs selfId (processLSA selfId st adv seq body).1 rest a

/-! ### `graph.Graph` and `router.Router.run_route_alg` -/

section RouteAlg

variable {α ι : Type} [DecidableEq α]

/-- `Graph.add_node`: append a missing key with an empty adjacency list. -/
def addNode (g : List (α × List (α × Nat × ι))) (n : α) :
    List (α × List (α × Nat × ι)) :=
  if (lookupA g n).isNone then g ++ [(n, [])] else g

/-- `self.nodes[from_node].append(edge)` (the key is always present when
called). -/
def appendEdge : List (α × List (α × Nat × ι)) → α → α × Nat × ι →
    List (α × List (α × Nat × ι))
  | [], _, _ => []
  | (k, es) :: rest, n, e =>
    if k = n then (k, es ++ [e]) :: rest else (k, es) :: appendEdge rest n e

/-- `Graph.add_edge`: ensure both endpoints exist, then append the directed
edge `(to_node, cost, interface)` to the source's adjacency list. -/
def addEdge (g : List (α × List (α × Nat × ι))) (a b : α) (c : Nat) (i : ι) :
    List (α × List (α × Nat × ι)) :=
  appendEdge (addNode (addNode g a) b) a (b, c, i)

/-- `run_route_alg` lines 139–142: the graph built from the LSDB, inserting
every `(node, neighbor, cost, interface)` edge in iteration order. -/
def buildGraph (lsdb : List (α × List (α × Nat × ι))) :
    List (α × List (α × Nat × ι)) :=
  lsdb.foldl
    (fun g p => p.2.foldl (fun g' e => addEdge g' p.1 e.1 e.2.1 e.2.2) g) []

/-- `D[k]` (the key is a graph node whenever the source reads it). -/
def dGet (D : List (α × WithTop Nat)) (k : α) : WithTop Nat :=
  (lookupA D k).getD ⊤

/-- `paths[k]` (the key is a graph node whenever the source reads it). -/
def pGet (paths : List (α × List (α × ι))) (k : α) : List (α × ι) :=
  (lookupA paths k).getD []

/-- `min((node for node in D if node not in N_prime), key=D.get)`: the first
unsettled key with minimal distance, in dictionary order (`none` when every
key is settled). -/
def minUnsettled : List (α × WithTop Nat) → List α → Option (α × WithTop Nat)
  | [], _ => none
  | (k, v) :: rest, np =>
    if k ∈ np then minUnsettled rest np
    else
      match minUnsettled rest np with
      | none => some (k, v)
      | some (k', v') => if v' < v then some (k', v') else some (k, v)

/-- The relaxation loop of `run_route_alg` lines 161–167, over the settled
set (already containing `w`), `D[w]` and `paths[w]`: each unsettled neighbor
is updated when `D[w] + cost` strictly improves on its distance. -/
def relaxEdges (np : List α) (dw : WithTop Nat) (pathw : List (α × ι)) :
    List (α × Nat × ι) →
    List (α × WithTop Nat) × List (α × List (α × ι)) →
    List (α × WithTop Nat) × List (α × List (α × ι))
  | [], acc => acc
  | (nb, c, iface) :: rest, (D, paths) =>
    if nb ∉ np then
      let nd := dw + (c : WithTop Nat)
      if nd < dGet D nb then
        relaxEdges np dw pathw rest
          (setA D nb nd, setA paths nb (pathw ++ [(nb, iface)]))
      else relaxEdges np dw pathw rest (D, paths)
    else relaxEdges np dw pathw rest (D, paths)

/-- The mutable state of the Dijkstra loop: the settled set `N_prime` (as
the list of settled nodes), the distances `D`, and `paths`. -/
structure DijkstraState (α ι : Type) where
  nprime : List α
  D : List (α × WithTop Nat)
  paths : List (α × List (α × ι))

/-- One iteration of the `while len(N_prime) < len(graph.nodes)` loop:
settle the minimal unsettled node `w`, then relax its outgoing edges. -/
def dijkstraStep (g : List (α × List (α × Nat × ι))) (st : DijkstraState α ι)
    (w : α) : DijkstraState α ι :=
  let np' := w :: st.nprime
  let res := relaxEdges np' (dGet st.D w) (pGet st.paths w)
    ((lookupA g w).getD []) (st.D, st.paths)
  ⟨np', res.1, res.2⟩

/-- The Dijkstra loop, fuelled (the source's loop settles one node per
iteration, so `g.length` iterations suffice). -/
def dijkstraLoop (g : List (α × List (α × Nat × ι))) :
    Nat → DijkstraState α ι → DijkstraState α ι
  | 0, st => st
  | fuel + 1, st =>
    if st.nprime.length < g.length then
      match minUnsettled st.D st.nprime with
      | none => st
      | some (w, _) => dijkstraLoop g fuel (dijkstraStep g st w)
    else st

/-- The initial-neighbor loop of `run_route_alg` lines 152–155:
`D[neighbor] = cost; paths[neighbor] = [(neighbor, interface)]` for each
direct neighbor of the router, in order (unconditional overwrites). -/
def initNeighbors :
    List (α × Nat × ι) →
    List (α × WithTop Nat) × List (α × List (α × ι)) →
    List (α × WithTop Nat) × List (α × List (α × ι))
  | [], acc => acc
  | (nb, c, iface) :: rest, (D, paths) =>
    initNeighbors rest (setA D nb (c : WithTop Nat), setA paths nb [(nb, iface)])

/-- `paths[node][0][1] if paths[node] else None`: the outgoing interface of
the first hop. -/
def headIface : List (α × ι) → Option ι
  | [] => none
  | (_, i) :: _ => some i

/-- The forwarding table derived on line 170 from final distances and
paths. -/
def forwardingTableOf (g : List (α × List (α × Nat × ι)))
    (D : List (α × WithTop Nat)) (paths : List (α × List (α × ι))) :
    List (α × (Option ι × WithTop Nat)) :=
  g.map fun p => (p.1, (headIface (pGet paths p.1), dGet D p.1))

/-- The Dijkstra run of `run_route_alg` lines 144–167: distances start at
`+∞` except `D[selfId] = 0` (`setA` mirrors the dict assignment, which would
also add a missing key), paths start empty, the direct neighbors of the
router are primed, and the loop settles one node per iteration —
`g.length` fuel covers the `while len(N_prime) < len(graph.nodes)` loop. -/
def dijkstraFinal (selfId : α) (lsdb : List (α × List (α × Nat × ι))) :
    DijkstraState α ι :=
  let g := buildGraph lsdb
  let D0 := setA (g.map fun p => (p.1, (⊤ : WithTop Nat))) selfId 0
  let paths0 := g.map fun p => (p.1, ([] : List (α × ι)))
  let init := initNeighbors ((lookupA g selfId).getD []) (D0, paths0)
  dijkstraLoop g g.length ⟨[selfId], init.1, init.2⟩

/-- `Router.run_route_alg` (`router.py` lines 128–170): build the graph from
the LSDB, run Dijkstra from `selfId`, and derive the forwarding table. -/
def runRouteAlg (selfId : α) (lsdb : List (α × List (α × Nat × ι))) :
    List (α × (Option ι × WithTop Nat)) :=
  forwardingTableOf (buildGraph lsdb) (dijkstraFinal selfId lsdb).D
    (dijkstraFinal selfId lsdb).paths

/-- A directed edge of the built graph. -/
def hasEdge (g : List (α × List (α × Nat × ι))) (x y : α) : Prop :=
  ∃ c i, (y, c, i) ∈ (lookupA g x).getD []

/-- Reachability along graph edges. -/
def Reach (g : List (α × List (α × Nat × ι))) (x y : α) : Prop :=
  Relation.ReflTransGen (hasEdge g) x y

/-- The Dijkstra loop invariant: the router itself is settled with distance
0 and the empty path, every finite distance belongs to a reachable node, and
every nonempty path belongs to a reachable node other than the router. -/
def DijkInv (g : List (α × List (α × Nat × ι))) (selfId : α)
    (st : DijkstraState α ι) : Prop :=
  selfId ∈ st.nprime ∧
  dGet st.D selfId = 0 ∧
  pGet st.paths selfId = [] ∧
  (∀ n, dGet st.D n ≠ ⊤ → Reach g selfId n) ∧
  (∀ n, pGet st.paths n ≠ [] → n ≠ selfId ∧ Reach g selfId n)

end RouteAlg

/-! ## Theorems -/

theorem takeExact_eq_none_iff (n : Nat) (l : List Nat) :
    takeExact n l = none ↔ l.length < n := by
  induction n generalizing l with
  | zero => simp [takeExact]
  | succ n ih =>
    cases l with
    | nil => simp [takeExact]
    | cons x l => simp [takeExact, ih]

theorem takeExact_eq_some (n : Nat) (l h t : List Nat)
    (heq : takeExact n l = some (h, t)) : t = l.drop n := by
  induction n generalizing l h t with
  | zero => simp [takeExact] at heq; simp [heq]
  | succ n ih =>
    cases l with
    | nil => simp [takeExact] at heq
    | cons x l =>
      cases hrec : takeExact n l with
      | none => simp [takeExact, hrec] at heq
      | some p =>
        obtain ⟨h', t'⟩ := p
        simp [takeExact, hrec] at heq
        rw [List.drop_succ_cons, ← heq.2]
        exact ih l h' t' hrec

theorem lsa_round_trip (d : LSADatagram) (h : d.wf) :
    LSADatagram.from_bytes d.to_bytes = .ok d := by
  obtain ⟨ver, ihl, tos, totlen, iid, frag, ttl, proto, chk,
    ⟨s1, s2, s3, s4⟩, ⟨e1, e2, e3, e4⟩, ⟨r1, r2, r3, r4⟩, seq, body⟩ := d
  obtain ⟨h1, h2, h3, h4, h5, h6, h7, h8, h9, ⟨sa1, sa2, sa3, sa4⟩,
    ⟨da1, da2, da3, da4⟩, ⟨a1, a2, a3, a4⟩, hseq⟩ := h
  simp only [] at h1 h2 h3 h4 h5 h6 h7 h8 h9 sa1 sa2 sa3 sa4 da1 da2 da3 da4 a1 a2 a3 a4 hseq
  simp only [LSADatagram.to_bytes, LSADatagram.from_bytes, IPHeader.from_bytes,
    u16, inet_aton, List.cons_append, List.nil_append, List.append_assoc,
    takeExact, byteAt, List.drop_succ_cons, List.drop_zero, Option.map_some',
    Option.map_none', List.append_eq]
  simp only [Except.ok.injEq, LSADatagram.mk.injEq, IPv4.mk.injEq]
  repeat' apply And.intro
  all_goals first | trivial | omega

theorem http_round_trip (d : HTTPDatagram) (h : d.wf) :
    HTTPDatagram.from_bytes d.to_bytes = .ok d := by
  obtain ⟨ver, ihl, tos, totlen, frag, ttl, proto, chk,
    ⟨s1, s2, s3, s4⟩, ⟨e1, e2, e3, e4⟩, sp, dp, seq, ack, doff, rsv, flg,
    win, cks, urg, ⟨n1, n2, n3, n4⟩, body⟩ := d
  obtain ⟨h1, h2, h3, h4, h5, h6, h7, h8, ⟨sa1, sa2, sa3, sa4⟩,
    ⟨da1, da2, da3, da4⟩, hsp, hdp, hseq, hack, hdo, hrs, hfl, hwi, hck, hug,
    ⟨nh1, nh2, nh3, nh4⟩⟩ := h
  simp only [] at h1 h2 h3 h4 h5 h6 h7 h8 sa1 sa2 sa3 sa4 da1 da2 da3 da4 hsp hdp hseq hack hdo hrs hfl hwi hck hug nh1 nh2 nh3 nh4
  simp only [HTTPDatagram.to_bytes, HTTPDatagram.from_bytes,
    u16, u32, inet_aton, List.cons_append, List.nil_append, List.append_assoc,
    takeExact, byteAt, List.drop_succ_cons, List.drop_zero, Option.map_some',
    Option.map_none', List.append_eq]
  simp only [Except.ok.injEq, HTTPDatagram.mk.injEq, IPv4.mk.injEq]
  repeat' apply And.intro
  all_goals first | trivial | omega

/-- C1: decoding the bytes produced by encoding a well-formed LSA datagram or
HTTP-carrying datagram yields a datagram equal to the original in every field
(the IP checksum field included, since `to_bytes` transmits it verbatim and
it is conventionally zero on encode). -/
theorem claim_C1_codec_round_trip :
    (∀ d : LSADatagram, d.wf → LSADatagram.from_bytes d.to_bytes = .ok d) ∧
    (∀ d : HTTPDatagram, d.wf → HTTPDatagram.from_bytes d.to_bytes = .ok d) :=
  ⟨lsa_round_trip, http_round_trip⟩

/-- Witness for C1 on concrete datagrams. -/
theorem claim_C1_codec_round_trip_witness :
    LSADatagram.from_bytes (LSADatagram.to_bytes
      ⟨4, 5, 0, 40, 0, 0, 255, 255, 0, ⟨127, 0, 0, 2⟩, ⟨224, 0, 0, 5⟩,
        ⟨1, 1, 1, 1⟩, 3, [50, 46, 50]⟩) =
      .ok ⟨4, 5, 0, 40, 0, 0, 255, 255, 0, ⟨127, 0, 0, 2⟩, ⟨224, 0, 0, 5⟩,
        ⟨1, 1, 1, 1⟩, 3, [50, 46, 50]⟩ ∧
    HTTPDatagram.from_bytes (HTTPDatagram.to_bytes
      ⟨4, 5, 0, 40, 0, 255, 255, 0, ⟨127, 0, 0, 1⟩, ⟨127, 128, 0, 1⟩,
        18000, 8080, 7, 2, 5, 0, 24, 3, 0, 0, ⟨127, 0, 0, 254⟩, [71, 69, 84]⟩) =
      .ok ⟨4, 5, 0, 40, 0, 255, 255, 0, ⟨127, 0, 0, 1⟩, ⟨127, 128, 0, 1⟩,
        18000, 8080, 7, 2, 5, 0, 24, 3, 0, 0, ⟨127, 0, 0, 254⟩, [71, 69, 84]⟩ :=
  ⟨claim_C1_codec_round_trip.1 _ (by constructor <;> simp [IPv4.wf]),
   claim_C1_codec_round_trip.2 _ (by constructor <;> simp [IPv4.wf])⟩

theorem ip_from_bytes_error_iff (bs : List Nat) :
    IPHeader.from_bytes bs = .error .malformedHeader ↔ bs.length < 20 := by
  rcases h20 : takeExact 20 bs with _ | ⟨b, rest⟩
  · simp [IPHeader.from_bytes, h20, (takeExact_eq_none_iff 20 bs).mp h20]
  · have hlen : ¬ bs.length < 20 := by
      intro hlt
      rw [(takeExact_eq_none_iff 20 bs).mpr hlt] at h20
      exact Option.noConfusion h20
    simp [IPHeader.from_bytes, h20, hlen]

theorem lsa_from_bytes_error_iff (bs : List Nat) :
    LSADatagram.from_bytes bs = .error .malformedHeader ↔ bs.length < 26 := by
  rcases h20 : takeExact 20 bs with _ | ⟨b, rest⟩
  · have := (takeExact_eq_none_iff 20 bs).mp h20
    simp [LSADatagram.from_bytes, IPHeader.from_bytes, h20]
    omega
  · have hlen : ¬ bs.length < 20 := by
      intro hlt
      rw [(takeExact_eq_none_iff 20 bs).mpr hlt] at h20
      exact Option.noConfusion h20
    rcases h6 : takeExact 6 (bs.drop 20) with _ | ⟨c, rest2⟩
    · have := (takeExact_eq_none_iff 6 (bs.drop 20)).mp h6
      rw [List.length_drop] at this
      simp [LSADatagram.from_bytes, IPHeader.from_bytes, h20, h6]
      omega
    · have h6' : ¬ (bs.drop 20).length < 6 := by
        intro hlt
        rw [(takeExact_eq_none_iff 6 (bs.drop 20)).mpr hlt] at h6
        exact Option.noConfusion h6
      rw [List.length_drop] at h6'
      simp [LSADatagram.from_bytes, IPHeader.from_bytes, h20, h6]
      omega

theorem http_from_bytes_error_iff (bs : List Nat) :
    HTTPDatagram.from_bytes bs = .error .malformedHeader ↔ bs.length < 44 := by
  rcases h20 : takeExact 20 bs with _ | ⟨b, rest⟩
  · have := (takeExact_eq_none_iff 20 bs).mp h20
    simp [HTTPDatagram.from_bytes, h20]
    omega
  · have hlen : ¬ bs.length < 20 := by
      intro hlt
      rw [(takeExact_eq_none_iff 20 bs).mpr hlt] at h20
      exact Option.noConfusion h20
    rcases h24 : takeExact 24 (bs.drop 20) with _ | ⟨c, rest2⟩
    · have := (takeExact_eq_none_iff 24 (bs.drop 20)).mp h24
      rw [List.length_drop] at this
      simp [HTTPDatagram.from_bytes, h20, h24]
      omega
    · have h24' : ¬ (bs.drop 20).length < 24 := by
        intro hlt
        rw [(takeExact_eq_none_iff 24 (bs.drop 20)).mpr hlt] at h24
        exact Option.noConfusion h24
      rw [List.length_drop] at h24'
      simp [HTTPDatagram.from_bytes, h20, h24]
      omega

theorem lsa_from_bytes_payload (bs : List Nat) (d : LSADatagram)
    (h : LSADatagram.from_bytes bs = .ok d) : d.lsa_data = bs.drop 26 := by
  rcases h20 : IPHeader.from_bytes bs with e | hdr
  · simp [LSADatagram.from_bytes, h20] at h
  · rcases h6 : takeExact 6 (bs.drop 20) with _ | ⟨c, rest2⟩
    · simp [LSADatagram.from_bytes, h20, h6] at h
    · have hrest : rest2 = (bs.drop 20).drop 6 := takeExact_eq_some 6 _ c rest2 h6
      simp [LSADatagram.from_bytes, h20, h6] at h
      rw [← h]
      simp [hrest, List.drop_drop]

theorem http_from_bytes_payload (bs : List Nat) (d : HTTPDatagram)
    (h : HTTPDatagram.from_bytes bs = .ok d) : d.data = bs.drop 44 := by
  rcases h20 : takeExact 20 bs with _ | ⟨b, rest⟩
  · simp [HTTPDatagram.from_bytes, h20] at h
  · rcases h24 : takeExact 24 (bs.drop 20) with _ | ⟨c, rest2⟩
    · simp [HTTPDatagram.from_bytes, h20, h24] at h
    · have hrest : rest2 = (bs.drop 20).drop 24 := takeExact_eq_some 24 _ c rest2 h24
      simp [HTTPDatagram.from_bytes, h20, h24] at h
      rw [← h]
      simp [hrest, List.drop_drop]

theorem lpmGo_spec (mb : NetKey → Option Nat) (ks : List NetKey) :
    ∀ acc : Option NetKey × Int,
    (lpmGo mb ks acc = acc ∨
      ∃ k m, k ∈ ks ∧ mb k = some m ∧ lpmGo mb ks acc = (some k, (m : Int))) ∧
    acc.2 ≤ (lpmGo mb ks acc).2 ∧
    (∀ k' ∈ ks, ∀ m', mb k' = some m' → (m' : Int) ≤ (lpmGo mb ks acc).2) := by
  induction ks with
  | nil => intro acc; simp [lpmGo]
  | cons k ks ih =>
    intro acc
    cases hmb : mb k with
    | none =>
      have hstep : lpmGo mb (k :: ks) acc = lpmGo mb ks acc := by
        simp [lpmGo, hmb]
      have h := ih acc
      rw [hstep]
      refine ⟨?_, h.2.1, ?_⟩
      · rcases h.1 with h1 | ⟨k0, m0, hk0, hmb0, hr⟩
        · exact Or.inl h1
        · exact Or.inr ⟨k0, m0, List.mem_cons_of_mem _ hk0, hmb0, hr⟩
      · intro k' hk' m' hm'
        rcases List.mem_cons.mp hk' with rfl | hk'
        · rw [hmb] at hm'; exact Option.noConfusion hm'
        · exact h.2.2 k' hk' m' hm'
    | some m =>
      by_cases hgt : (m : Int) > acc.2
      · have hstep : lpmGo mb (k :: ks) acc = lpmGo mb ks (some k, (m : Int)) := by
          simp [lpmGo, hmb, hgt]
        have h := ih (some k, (m : Int))
        have h2 : (m : Int) ≤ (lpmGo mb ks (some k, (m : Int))).2 := h.2.1
        rw [hstep]
        refine ⟨?_, by omega, ?_⟩
        · rcases h.1 with h1 | ⟨k0, m0, hk0, hmb0, hr⟩
          · exact Or.inr ⟨k, m, List.mem_cons_self _ _, hmb, h1⟩
          · exact Or.inr ⟨k0, m0, List.mem_cons_of_mem _ hk0, hmb0, hr⟩
        · intro k' hk' m' hm'
          rcases List.mem_cons.mp hk' with rfl | hk'
          · rw [hmb] at hm'
            injection hm' with hm'
            subst hm'
            exact h2
          · exact h.2.2 k' hk' m' hm'
      · have hstep : lpmGo mb (k :: ks) acc = lpmGo mb ks acc := by
          simp [lpmGo, hmb, hgt]
        have h := ih acc
        have h2 : acc.2 ≤ (lpmGo mb ks acc).2 := h.2.1
        rw [hstep]
        refine ⟨?_, h2, ?_⟩
        · rcases h.1 with h1 | ⟨k0, m0, hk0, hmb0, hr⟩
          · exact Or.inl h1
          · exact Or.inr ⟨k0, m0, List.mem_cons_of_mem _ hk0, hmb0, hr⟩
        · intro k' hk' m' hm'
          rcases List.mem_cons.mp hk' with rfl | hk'
          · rw [hmb] at hm'
            injection hm' with hm'
            subst hm'
            omega
          · exact h.2.2 k' hk' m' hm'

/-- C2 (counterexample): with forwarding table `{'2.2.2.2': …, '0.0.0.0/1': …}`
and destination `2.2.2.2`, the source selects `0.0.0.0/1`, not the bare host
key `2.2.2.2`, because keys without `'/'` are skipped by the matching loop;
under the claim's reading (host key matched as `/32`) the host key would win. -/
theorem claim_C2_counterexample :
    longestPrefixMatch ⟨2, 2, 2, 2⟩ [.host ⟨2, 2, 2, 2⟩, .cidr ⟨0, 0, 0, 0⟩ 1] =
      some (.cidr ⟨0, 0, 0, 0⟩ 1) ∧
    claimedLongestPrefixMatch ⟨2, 2, 2, 2⟩
        [.host ⟨2, 2, 2, 2⟩, .cidr ⟨0, 0, 0, 0⟩ 1] =
      some (.host ⟨2, 2, 2, 2⟩) := by
  constructor <;> decide

/-- C2 (amended): the longest-prefix match only ever selects a key in CIDR
form `A.B.C.D/P` with `P ≤ 32`; bare host keys are never matched (they are
not treated as `/32`). Among the keys the loop can process, the selected key
maximises the count of consecutive leading bits matching the destination
(counted up to `P`), and whenever some processable key exists one is
selected. -/
theorem claim_C2_longest_prefix_match :
    (∀ (dest : IPv4) (keys : List NetKey) (k : NetKey),
      longestPrefixMatch dest keys = some k →
      (∃ a p, k = .cidr a p ∧ p ≤ 32) ∧ k ∈ keys ∧
      ∀ k' ∈ keys, ∀ m', matchingBits dest k' = some m' →
        ∃ m, matchingBits dest k = some m ∧ m' ≤ m) ∧
    (∀ (dest : IPv4) (keys : List NetKey) (k' : NetKey), k' ∈ keys →
      (matchingBits dest k').isSome → (longestPrefixMatch dest keys).isSome) := by
  constructor
  · intro dest keys k hsel
    have h := lpmGo_spec (matchingBits dest) keys (none, -1)
    rcases h.1 with h1 | ⟨k0, m0, hk0, hmb0, hr⟩
    · rw [longestPrefixMatch, h1] at hsel
      exact Option.noConfusion hsel
    · rw [longestPrefixMatch, hr] at hsel
      injection hsel with hsel
      subst hsel
      refine ⟨?_, hk0, ?_⟩
      · rcases k0 with ⟨a, p⟩ | a
        · refine ⟨a, p, rfl, ?_⟩
          by_contra hp
          simp [matchingBits, hp] at hmb0
        · simp [matchingBits] at hmb0
      · intro k' hk' m' hm'
        have h3 := h.2.2 k' hk' m' hm'
        rw [hr] at h3
        simp only [] at h3
        exact ⟨m0, hmb0, by exact_mod_cast h3⟩
  · intro dest keys k' hk' hm'
    rcases hsome : matchingBits dest k' with _ | m'
    · rw [hsome] at hm'; simp at hm'
    have h := lpmGo_spec (matchingBits dest) keys (none, -1)
    have h3 := h.2.2 k' hk' m' hsome
    rcases h.1 with h1 | ⟨k0, m0, hk0, hmb0, hr⟩
    · rw [h1] at h3
      simp at h3
      omega
    · rw [longestPrefixMatch, hr]
      simp

/-- Witness for the amended C2 on a concrete table: with keys
`['10.0.0.0/8', '2.2.2.2']` and destination `10.1.2.3`, the CIDR key is
selected, it lies in the table, and its matching-bit count dominates. -/
theorem claim_C2_longest_prefix_match_witness :
    (∃ a p, (NetKey.cidr ⟨10, 0, 0, 0⟩ 8 : NetKey) = .cidr a p ∧ p ≤ 32) ∧
    NetKey.cidr ⟨10, 0, 0, 0⟩ 8 ∈
      [NetKey.cidr ⟨10, 0, 0, 0⟩ 8, NetKey.host ⟨2, 2, 2, 2⟩] ∧
    (∀ k' ∈ [NetKey.cidr ⟨10, 0, 0, 0⟩ 8, NetKey.host ⟨2, 2, 2, 2⟩],
      ∀ m', matchingBits ⟨10, 1, 2, 3⟩ k' = some m' →
        ∃ m, matchingBits ⟨10, 1, 2, 3⟩ (.cidr ⟨10, 0, 0, 0⟩ 8) = some m ∧ m' ≤ m) := by
  have := claim_C2_longest_prefix_match.1 ⟨10, 1, 2, 3⟩
    [NetKey.cidr ⟨10, 0, 0, 0⟩ 8, NetKey.host ⟨2, 2, 2, 2⟩]
    (.cidr ⟨10, 0, 0, 0⟩ 8) (by decide)
  exact this

/-- C7 (counterexample): the re-emitted datagram does not merely rewrite
`next_hop`: a received datagram with `ip_ttl = 7` is re-emitted with the
constructor default `ip_ttl = 255`. -/
theorem claim_C7_counterexample :
    (mkForwardedDatagram
      ⟨4, 5, 9, 41, 3, 7, 6, 1, ⟨127, 0, 0, 1⟩, ⟨127, 128, 0, 1⟩, 1024, 8080,
        5, 2, 5, 0, 24, 3, 0, 0, ⟨127, 0, 0, 254⟩, [72]⟩
      ⟨127, 248, 0, 2⟩).ip_ttl = 255 ∧
    (HTTPDatagram.ip_ttl
      ⟨4, 5, 9, 41, 3, 7, 6, 1, ⟨127, 0, 0, 1⟩, ⟨127, 128, 0, 1⟩, 1024, 8080,
        5, 2, 5, 0, 24, 3, 0, 0, ⟨127, 0, 0, 254⟩, [72]⟩) = 7 := by
  constructor <;> rfl

/-- C7 (amended): the re-emitted datagram carries the same IP source and
destination addresses, ports, sequence and acknowledgment numbers, flags,
window size and payload as the received datagram, and `next_hop` is rewritten
to the peer address of the chosen outgoing interface; but the remaining
header fields are not copied — they take the `HTTPDatagram` constructor
defaults (ToS 0, total length 40, fragment offset 0, TTL 255, protocol 255,
checksums 0, data offset 5, reserved 0, urgent pointer 0). -/
theorem claim_C7_forwarded_datagram_fields (d : HTTPDatagram) (peer : IPv4) :
    (mkForwardedDatagram d peer).ip_saddr = d.ip_saddr ∧
    (mkForwardedDatagram d peer).ip_daddr = d.ip_daddr ∧
    (mkForwardedDatagram d peer).source_port = d.source_port ∧
    (mkForwardedDatagram d peer).dest_port = d.dest_port ∧
    (mkForwardedDatagram d peer).seq_num = d.seq_num ∧
    (mkForwardedDatagram d peer).ack_num = d.ack_num ∧
    (mkForwardedDatagram d peer).flags = d.flags ∧
    (mkForwardedDatagram d peer).window_size = d.window_size ∧
    (mkForwardedDatagram d peer).data = d.data ∧
    (mkForwardedDatagram d peer).next_hop = peer ∧
    (mkForwardedDatagram d peer).ip_ver = 4 ∧
    (mkForwardedDatagram d peer).ip_ihl = 5 ∧
    (mkForwardedDatagram d peer).ip_tos = 0 ∧
    (mkForwardedDatagram d peer).ip_tot_len = 40 ∧
    (mkForwardedDatagram d peer).ip_frag_off = 0 ∧
    (mkForwardedDatagram d peer).ip_ttl = 255 ∧
    (mkForwardedDatagram d peer).ip_proto = 255 ∧
    (mkForwardedDatagram d peer).ip_check = 0 ∧
    (mkForwardedDatagram d peer).data_offset = 5 ∧
    (mkForwardedDatagram d peer).reserved = 0 ∧
    (mkForwardedDatagram d peer).checksum = 0 ∧
    (mkForwardedDatagram d peer).urgent_pointer = 0 := by
  repeat' apply And.intro
  all_goals rfl

/-- C9: each decoder fails with `MalformedHeader` exactly when the buffer is
shorter than its fixed header (20 octets plain IP, 26 octets LSA, 44 octets
HTTP), and on success the decoded payload is exactly the bytes after the
fixed header. -/
theorem claim_C9_decode_length_contract :
    (∀ bs : List Nat, IPHeader.from_bytes bs = .error .malformedHeader ↔ bs.length < 20) ∧
    (∀ bs : List Nat, LSADatagram.from_bytes bs = .error .malformedHeader ↔ bs.length < 26) ∧
    (∀ bs : List Nat, HTTPDatagram.from_bytes bs = .error .malformedHeader ↔ bs.length < 44) ∧
    (∀ (bs : List Nat) (d : LSADatagram),
      LSADatagram.from_bytes bs = .ok d → d.lsa_data = bs.drop 26) ∧
    (∀ (bs : List Nat) (d : HTTPDatagram),
      HTTPDatagram.from_bytes bs = .ok d → d.data = bs.drop 44) :=
  ⟨ip_from_bytes_error_iff, lsa_from_bytes_error_iff, http_from_bytes_error_iff,
   lsa_from_bytes_payload, http_from_bytes_payload⟩

/-- Witness for C9: a 25-octet buffer fails to decode as an LSA datagram, and
the 27-octet buffer obtained by appending payload byte 9 to a 26-octet header
decodes with payload `[9]`. -/
theorem claim_C9_decode_length_contract_witness :
    (LSADatagram.from_bytes (List.replicate 25 0) = .error .malformedHeader) ∧
    (∀ d : LSADatagram,
      LSADatagram.from_bytes (List.replicate 26 0 ++ [9]) = .ok d →
        d.lsa_data = [9]) := by
  constructor
  · exact (claim_C9_decode_length_contract.2.1 _).mpr (by simp)
  · intro d h
    have := claim_C9_decode_length_contract.2.2.2.1 _ d h
    simpa using this

/-- C8: an accepted but out-of-order segment (`seq_num ≠ ack_num`) leaves the
receiver state — `ack_num` and the assembled response included — unchanged,
and the reply is a cumulative ACK with flags 16 carrying the unchanged
`ack_num`: the same ACK as before. -/
theorem claim_C8_duplicate_ack_idempotent
    (client_ip gateway : IPv4) (client_port window_size : Nat)
    (st : ReceiverState) (d : HTTPDatagram)
    (hdaddr : d.ip_daddr = client_ip) (hnh : d.next_hop = client_ip)
    (hflags : d.flags = 17 ∨ d.flags = 24 ∨ d.flags = 25)
    (hdup : d.seq_num ≠ st.ack_num) :
    clientReceiveStep client_ip gateway client_port window_size st d =
      (st, some (mkEndpointDatagram client_ip d.ip_saddr client_port
        d.source_port st.seq_num st.ack_num 16 window_size gateway
        [65, 67, 75])) := by
  rcases hflags with h | h | h <;>
    simp [clientReceiveStep, hdaddr, hnh, h, hdup]

/-- Witness for C8: a duplicate data segment with `seq_num = 9` against
expected `ack_num = 2` is dropped and re-ACKed with `ack_num = 2`. -/
theorem claim_C8_duplicate_ack_idempotent_witness :
    clientReceiveStep ⟨127, 0, 0, 1⟩ ⟨127, 0, 0, 254⟩ 1024 3
        ⟨5, 2, [72], 24⟩
        (mkEndpointDatagram ⟨127, 128, 0, 1⟩ ⟨127, 0, 0, 1⟩ 8080 1024 9 0 24 3
          ⟨127, 0, 0, 1⟩ [33]) =
      (⟨5, 2, [72], 24⟩,
        some (mkEndpointDatagram ⟨127, 0, 0, 1⟩ ⟨127, 128, 0, 1⟩ 1024 8080 5 2
          16 3 ⟨127, 0, 0, 254⟩ [65, 67, 75])) :=
  claim_C8_duplicate_ack_idempotent ⟨127, 0, 0, 1⟩ ⟨127, 0, 0, 254⟩ 1024 3
    ⟨5, 2, [72], 24⟩ _ rfl rfl (by decide) (by decide)

/-- C6 (counterexample): four segments, window 2, `base = 1`, `flags = 24`.
The valid cumulative ACK for segment 1 triggers transmission of segment
`base + W = 3` — the last segment of the stream — yet it is sent with flags
24, not a promoted 25, because the source's promotion test
`base == min(len(segments), base + window_size) - 1` compares `base`, not
`base + window_size`, with the last index. -/
theorem claim_C6_counterexample :
    clientAckStep ⟨127, 0, 0, 1⟩ ⟨127, 128, 0, 1⟩ ⟨127, 0, 0, 254⟩ 1024 8080 9
        2 1 [[48], [49], [50], [51]] ⟨1, 4, 24⟩
        (mkEndpointDatagram ⟨127, 128, 0, 1⟩ ⟨127, 0, 0, 1⟩ 8080 1024 0 3 16 2
          ⟨127, 0, 0, 1⟩ [65, 67, 75]) =
      (⟨2, 5, 24⟩,
        some (mkEndpointDatagram ⟨127, 0, 0, 1⟩ ⟨127, 128, 0, 1⟩ 1024 8080 4 9
          24 2 ⟨127, 0, 0, 254⟩ [51])) := by
  decide

/-- C6 (amended): on a valid cumulative ACK both Go-Back-N senders always
advance `base` by one; when `base + W` is still a segment index they transmit
exactly segment `base + W` (advancing `seq_num`), but the FIN promotion does
not test whether that segment is the last one: flags become 25 exactly when
`base = min(N, base + W) - 1` — which, given `base + W < N`, holds iff
`W = 1` — the server additionally requiring the current flags to be 24;
otherwise the segment carries the current `flags` value unchanged. -/
theorem claim_C6_valid_ack_transition (cip sip gw : IPv4)
    (cport sport ackn W isn : Nat) (segments : List (List Nat))
    (st : SenderState) (d : HTTPDatagram)
    (hnh : d.next_hop = cip) (hsrc : d.ip_saddr = sip) (hfl : d.flags = 16)
    (hack : d.ack_num = st.base + isn + 1) :
    ((clientAckStep cip sip gw cport sport ackn W isn segments st d).1.base =
      st.base + 1) ∧
    (st.base + W < segments.length →
      clientAckStep cip sip gw cport sport ackn W isn segments st d =
        (⟨st.base + 1, st.seq_num + 1,
          if (st.base : Int) =
              min (segments.length : Int) ((st.base : Int) + (W : Int)) - 1
          then 25 else st.flags⟩,
         some (mkEndpointDatagram cip sip cport sport st.seq_num ackn
          (if (st.base : Int) =
              min (segments.length : Int) ((st.base : Int) + (W : Int)) - 1
           then 25 else st.flags) W gw (segments.getD (st.base + W) [])))) ∧
    (¬ st.base + W < segments.length →
      clientAckStep cip sip gw cport sport ackn W isn segments st d =
        (⟨st.base + 1, st.seq_num, st.flags⟩, none)) ∧
    (st.base + W < segments.length →
      (((st.base : Int) =
          min (segments.length : Int) ((st.base : Int) + (W : Int)) - 1) ↔
        W = 1)) ∧
    ((serverAckStep cip sip gw cport sport ackn W isn segments st d).1.base =
      st.base + 1) ∧
    (st.base + W < segments.length →
      serverAckStep cip sip gw cport sport ackn W isn segments st d =
        (⟨st.base + 1, st.seq_num + 1,
          if (st.base : Int) =
              min (segments.length : Int) ((st.base : Int) + (W : Int)) - 1
             ∧ st.flags = 24
          then 25 else st.flags⟩,
         some (mkEndpointDatagram cip sip cport sport st.seq_num ackn
          (if (st.base : Int) =
              min (segments.length : Int) ((st.base : Int) + (W : Int)) - 1
             ∧ st.flags = 24
           then 25 else st.flags) W gw (segments.getD (st.base + W) [])))) ∧
    (¬ st.base + W < segments.length →
      serverAckStep cip sip gw cport sport ackn W isn segments st d =
        (⟨st.base + 1, st.seq_num, st.flags⟩, none)) := by
  refine ⟨?_, ?_, ?_, ?_, ?_, ?_, ?_⟩
  · by_cases hlt : st.base + W < segments.length <;>
      simp [clientAckStep, hnh, hsrc, hfl, hack, hlt]
  · intro hlt; simp [clientAckStep, hnh, hsrc, hfl, hack, hlt]
  · intro hlt; simp [clientAckStep, hnh, hsrc, hfl, hack, hlt]
  · intro hlt
    have h32 : (st.base : Int) + (W : Int) < (segments.length : Int) := by
      exact_mod_cast hlt
    rw [min_eq_right (by omega)]
    constructor
    · intro h; omega
    · intro h; subst h; push_cast; omega
  · by_cases hlt : st.base + W < segments.length <;>
      simp [serverAckStep, hnh, hsrc, hfl, hack, hlt]
  · intro hlt; simp [serverAckStep, hnh, hsrc, hfl, hack, hlt]
  · intro hlt; simp [serverAckStep, hnh, hsrc, hfl, hack, hlt]

/-- Witness for the amended C6: three segments, window 2, `base = 0`; the
valid ACK for segment 0 sends segment 2 with unchanged flags 24 and base
advances to 1. -/
theorem claim_C6_valid_ack_transition_witness :
    clientAckStep ⟨127, 0, 0, 1⟩ ⟨127, 128, 0, 1⟩ ⟨127, 0, 0, 254⟩ 1024 8080 9
        2 1 [[48], [49], [50]] ⟨0, 3, 24⟩
        (mkEndpointDatagram ⟨127, 128, 0, 1⟩ ⟨127, 0, 0, 1⟩ 8080 1024 0 2 16 2
          ⟨127, 0, 0, 1⟩ [65, 67, 75]) =
      (⟨1, 4, 24⟩,
        some (mkEndpointDatagram ⟨127, 0, 0, 1⟩ ⟨127, 128, 0, 1⟩ 1024 8080 3 9
          24 2 ⟨127, 0, 0, 254⟩ [50])) := by
  have h := (claim_C6_valid_ack_transition ⟨127, 0, 0, 1⟩ ⟨127, 128, 0, 1⟩
    ⟨127, 0, 0, 254⟩ 1024 8080 9 2 1 [[48], [49], [50]] ⟨0, 3, 24⟩
    (mkEndpointDatagram ⟨127, 128, 0, 1⟩ ⟨127, 0, 0, 1⟩ 8080 1024 0 2 16 2
      ⟨127, 0, 0, 1⟩ [65, 67, 75]) rfl rfl rfl (by decide)).2.1 (by decide)
  rw [h]
  decide

/-- C3: the claim says a GET for a stored resource without
`If-Modified-Since` yields `200 OK` with `Content-Length` and the resource
body; the code instead raises `NameError`, because the plain-GET branch
(`tcp_server.py:274`) reads `resource_info`, which is only assigned inside
the `if modified_since:` branch (line 241). Evaluating the handler at the
failing input shows the crash. -/
theorem claim_C3_plain_get_raises_name_error :
    processRequest (fun _ => 0) [] []
      [("/index.html".data,
        ⟨"Wed, 21 Oct 2020 07:28:00 GMT".data, 15, "abc123".data,
          "<html>hi</html>".data⟩)]
      "GET /index.html HTTP/1.1\r\nHost: 127.128.0.1\r\n\r\n".data =
    .error .nameError := by
  decide

/-- C4 (counterexample): a conditional GET whose `If-Modified-Since` equals
the resource's `last_modified` produces the claimed response string
`HTTP/1.1 304 Not Modified\r\n\r\n`, but the `flags` local is never set to
24 in the 304 branch: it keeps its initial value 17, so the (single) segment
of the response carries flags 17, not 24, and the 24→25 FIN promotion cannot
apply. -/
theorem claim_C4_counterexample :
    processRequest (fun _ => 0) [] []
      [("/index.html".data,
        ⟨"Wed, 21 Oct 2020 07:28:00 GMT".data, 15, "abc123".data,
          "<html>hi</html>".data⟩)]
      "GET /index.html HTTP/1.1\r\nHost: 127.128.0.1\r\nIf-Modified-Since: Wed, 21 Oct 2020 07:28:00 GMT\r\n\r\n".data =
      .ok (("HTTP/1.1 304 Not Modified\r\n\r\n".data, 17),
        [("/index.html".data,
          ⟨"Wed, 21 Oct 2020 07:28:00 GMT".data, 15, "abc123".data,
            "<html>hi</html>".data⟩)]) ∧
    burstSegmentFlags 17 0 1 = 17 := by
  constructor <;> decide

/-- C4 (amended): a GET on a stored resource whose (nonempty)
`If-Modified-Since` timestamp is greater than or equal to the resource's
`last_modified` yields exactly the response string
`HTTP/1.1 304 Not Modified\r\n\r\n`, the store unchanged — but with flags 17
on every segment (the error/terminal value the `flags` local starts from),
not 24 with a promotion to 25 on the last segment: the promotion requires
flags 24 and so never applies. -/
theorem claim_C4_not_modified_response (parseDate : Str → Nat)
    (now etag : Str) (resources : List (Str × Resource)) (request : Str)
    (res : Str) (tl : List Str) (info : Resource) (ms : Str)
    (hline : pySplitWs ((splitOnCRLF request).headD []) =
      "GET".data :: res :: tl)
    (hstore : lookupStore resources res = some info)
    (hims : findIMS (splitOnCRLF request).tail = some ms)
    (hms : ms ≠ [])
    (hdate : parseDate info.last_modified ≤ parseDate ms) :
    processRequest parseDate now etag resources request =
      .ok (("HTTP/1.1 304 Not Modified\r\n\r\n".data, 17), resources) ∧
    ∀ i n, burstSegmentFlags 17 i n = 17 := by
  constructor
  · have hGP : ("GET".data : Str) ≠ "POST".data := by decide
    simp only [processRequest, hline, hims]
    simp [hstore, hms, hdate, hGP]
  · intro i n
    simp [burstSegmentFlags]

/-- Witness for the amended C4 at a concrete conditional GET. -/
theorem claim_C4_not_modified_response_witness :
    processRequest (fun _ => 0) [] []
      [("/a.html".data,
        ⟨"Mon, 01 Jan 2024 00:00:00 GMT".data, 2, "zzz999".data, "ok".data⟩)]
      "GET /a.html HTTP/1.1\r\nHost: s\r\nIf-Modified-Since: Tue, 02 Jan 2024 00:00:00 GMT\r\n\r\n".data =
      .ok (("HTTP/1.1 304 Not Modified\r\n\r\n".data, 17),
        [("/a.html".data,
          ⟨"Mon, 01 Jan 2024 00:00:00 GMT".data, 2, "zzz999".data,
            "ok".data⟩)]) :=
  (claim_C4_not_modified_response (fun _ => 0) [] []
    [("/a.html".data,
      ⟨"Mon, 01 Jan 2024 00:00:00 GMT".data, 2, "zzz999".data, "ok".data⟩)]
    "GET /a.html HTTP/1.1\r\nHost: s\r\nIf-Modified-Since: Tue, 02 Jan 2024 00:00:00 GMT\r\n\r\n".data
    "/a.html".data ["HTTP/1.1".data]
    ⟨"Mon, 01 Jan 2024 00:00:00 GMT".data, 2, "zzz999".data, "ok".data⟩
    "Tue, 02 Jan 2024 00:00:00 GMT".data
    (by decide) (by decide) (by decide) (by decide) (by decide)).1

theorem lookupA_setA_same {α β : Type} [DecidableEq α]
    (m : List (α × β)) (k : α) (v : β) : lookupA (setA m k v) k = some v := by
  induction m with
  | nil => simp [setA, lookupA]
  | cons p rest ih =>
    obtain ⟨k', v'⟩ := p
    by_cases h : k' = k <;> simp [setA, lookupA, h, ih]

theorem lookupA_setA_ne {α β : Type} [DecidableEq α]
    (m : List (α × β)) (k a : α) (v : β) (h : a ≠ k) :
    lookupA (setA m k v) a = lookupA m a := by
  induction m with
  | nil =>
    simp only [setA, lookupA]
    rw [if_neg (fun he : k = a => h he.symm)]
  | cons p rest ih =>
    obtain ⟨k', v'⟩ := p
    simp only [setA]
    by_cases hk : k' = k
    · rw [if_pos hk]
      simp only [lookupA]
      rw [if_neg (fun he : k = a => h he.symm),
        if_neg (fun he : k' = a => h (he.symm.trans hk))]
    · rw [if_neg hk]
      simp only [lookupA]
      by_cases ha : k' = a
      · rw [if_pos ha, if_pos ha]
      · rw [if_neg ha, if_neg ha]
        exact ih

theorem processLSA_drop (selfId : IPv4) (st : RouterLSAState) (adv : IPv4)
    (seq : Nat) (body : Str)
    (h : adv = selfId ∨ ∃ m, lookupA st.router_lsa_num adv = some m ∧ seq ≤ m) :
    processLSA selfId st adv seq body = (st, false, none) := by
  have hcond : ¬ (lsaIsNew st adv seq = true ∧ adv ≠ selfId) := by
    rcases h with rfl | ⟨m, hm, hle⟩
    · rintro ⟨-, hne⟩
      exact hne rfl
    · rintro ⟨hnew, -⟩
      rw [lsaIsNew, hm] at hnew
      simp at hnew
      omega
  rw [processLSA, if_neg hcond]

theorem processLSA_accept_map (selfId : IPv4) (st : RouterLSAState)
    (adv : IPv4) (seq : Nat) (body : Str)
    (h : lsaIsNew st adv seq = true ∧ adv ≠ selfId) :
    ((processLSA selfId st adv seq body).1).router_lsa_num =
      setA st.router_lsa_num adv seq := by
  rw [processLSA, if_pos h]
  cases parseLSABody body <;> rfl

theorem lsa_seq_invariant (selfId : IPv4) (msgs : List (IPv4 × Nat × Str)) :
    ∀ (st : RouterLSAState) (a : IPv4),
      (acceptedSeqs selfId st msgs a = [] →
        lookupA (processLSAList selfId st msgs).router_lsa_num a =
          lookupA st.router_lsa_num a) ∧
      (∀ m0, lookupA st.router_lsa_num a = some m0 →
        ∃ m1, lookupA (processLSAList selfId st msgs).router_lsa_num a =
          some m1 ∧ m0 ≤ m1) ∧
      (acceptedSeqs selfId st msgs a ≠ [] →
        ∃ m, lookupA (processLSAList selfId st msgs).router_lsa_num a =
          some m ∧ m ∈ acceptedSeqs selfId st msgs a ∧
          ∀ x ∈ acceptedSeqs selfId st msgs a, x ≤ m) := by
  induction msgs with
  | nil =>
    intro st a
    refine ⟨fun _ => rfl, fun m0 h => ⟨m0, h, le_refl m0⟩, fun h => ?_⟩
    simp [acceptedSeqs] at h
  | cons msg rest ih =>
    obtain ⟨adv, seq, body⟩ := msg
    intro st a
    by_cases hacc : lsaIsNew st adv seq = true ∧ adv ≠ selfId
    · have hmap := processLSA_accept_map selfId st adv seq body hacc
      have hF : processLSAList selfId st ((adv, seq, body) :: rest) =
          processLSAList selfId (processLSA selfId st adv seq body).1 rest := rfl
      have ihs := ih (processLSA selfId st adv seq body).1 a
      by_cases haa : adv = a
      · subst haa
        have hlook : lookupA ((processLSA selfId st adv seq body).1).router_lsa_num adv =
            some seq := by rw [hmap]; exact lookupA_setA_same _ _ _
        have hA : acceptedSeqs selfId st ((adv, seq, body) :: rest) adv =
            seq :: acceptedSeqs selfId (processLSA selfId st adv seq body).1 rest adv := by
          rw [acceptedSeqs, if_pos ⟨hacc, rfl⟩]
          rfl
        refine ⟨?_, ?_, ?_⟩
        · intro habs
          rw [hA] at habs
          exact absurd habs (List.cons_ne_nil _ _)
        · intro m0 hm0
          have hlt : m0 < seq := by
            have := hacc.1
            rw [lsaIsNew, hm0] at this
            simpa using this
          obtain ⟨m1, hm1, hle1⟩ := ihs.2.1 seq hlook
          exact ⟨m1, by rw [hF]; exact hm1, by omega⟩
        · intro _
          rcases hAr : acceptedSeqs selfId (processLSA selfId st adv seq body).1 rest adv with _ | ⟨x, xs⟩
          · refine ⟨seq, ?_, ?_, ?_⟩
            · rw [hF, ihs.1 hAr, hlook]
            · rw [hA, hAr]; exact List.mem_singleton.mpr rfl
            · intro y hy
              rw [hA, hAr] at hy
              simp at hy
              omega
          · have hne : acceptedSeqs selfId (processLSA selfId st adv seq body).1 rest adv ≠ [] := by
              rw [hAr]; exact List.cons_ne_nil _ _
            obtain ⟨m, hm, hmem, hmax⟩ := ihs.2.2 hne
            obtain ⟨m1, hm1, hle1⟩ := ihs.2.1 seq hlook
            have hmm1 : m1 = m := by
              rw [hm] at hm1
              exact (Option.some.injEq _ _ ▸ hm1).symm
            refine ⟨m, by rw [hF]; exact hm, ?_, ?_⟩
            · rw [hA]; exact List.mem_cons_of_mem _ hmem
            · intro y hy
              rw [hA] at hy
              rcases List.mem_cons.mp hy with rfl | hy
              · omega
              · exact hmax y hy
      · have hlook : lookupA ((processLSA selfId st adv seq body).1).router_lsa_num a =
            lookupA st.router_lsa_num a := by
          rw [hmap]
          exact lookupA_setA_ne _ _ _ _ (fun he => haa he.symm)
        have hA : acceptedSeqs selfId st ((adv, seq, body) :: rest) a =
            acceptedSeqs selfId (processLSA selfId st adv seq body).1 rest a := by
          rw [acceptedSeqs, if_neg (fun hc => haa hc.2)]
          rfl
        have ihs := ih (processLSA selfId st adv seq body).1 a
        refine ⟨?_, ?_, ?_⟩
        · intro habs
          rw [hA] at habs
          rw [hF, ihs.1 habs, hlook]
        · intro m0 hm0
          obtain ⟨m1, hm1, hle1⟩ := ihs.2.1 m0 (by rw [hlook]; exact hm0)
          exact ⟨m1, by rw [hF]; exact hm1, hle1⟩
        · intro hne
          rw [hA] at hne
          obtain ⟨m, hm, hmem, hmax⟩ := ihs.2.2 hne
          refine ⟨m, by rw [hF]; exact hm, by rw [hA]; exact hmem, ?_⟩
          intro y hy
          rw [hA] at hy
          exact hmax y hy
    · have hns : (processLSA selfId st adv seq body).1 = st := by
        rw [processLSA, if_neg hacc]
      have hF : processLSAList selfId st ((adv, seq, body) :: rest) =
          processLSAList selfId st rest := by
        rw [processLSAList, hns]
      have hA : acceptedSeqs selfId st ((adv, seq, body) :: rest) a =
          acceptedSeqs selfId st rest a := by
        rw [acceptedSeqs, if_neg (fun hc => hacc hc.1), hns]
        rfl
      have ihs := ih st a
      refine ⟨?_, ?_, ?_⟩
      · intro habs
        rw [hA] at habs
        rw [hF]
        exact ihs.1 habs
      · intro m0 hm0
        obtain ⟨m1, hm1, hle1⟩ := ihs.2.1 m0 hm0
        exact ⟨m1, by rw [hF]; exact hm1, hle1⟩
      · intro hne
        rw [hA] at hne
        obtain ⟨m, hm, hmem, hmax⟩ := ihs.2.2 hne
        exact ⟨m, by rw [hF]; exact hm, by rw [hA]; exact hmem,
          fun y hy => hmax y (hA ▸ hy)⟩

/-- C5: (monotonicity) starting from the empty sequence map, after any run
of LSA processing the stored sequence number for each origin is exactly the
maximum ever accepted from that origin (and absent when nothing was
accepted); and (drop no-op) an LSA whose `adv_rtr` is the router itself, or
whose sequence number is at most the stored one for its origin, leaves the
whole state — sequence map, LSDB — unchanged, does not reset the quiescence
timer, and floods nothing. -/
theorem claim_C5_lsa_monotonic_drop :
    (∀ (selfId : IPv4) (lsdb0 : List (IPv4 × List (Str × Int × Str)))
        (msgs : List (IPv4 × Nat × Str)) (a : IPv4),
      (acceptedSeqs selfId ⟨[], lsdb0⟩ msgs a = [] →
        lookupA (processLSAList selfId ⟨[], lsdb0⟩ msgs).router_lsa_num a =
          none) ∧
      (acceptedSeqs selfId ⟨[], lsdb0⟩ msgs a ≠ [] →
        ∃ m, lookupA (processLSAList selfId ⟨[], lsdb0⟩ msgs).router_lsa_num a =
          some m ∧ m ∈ acceptedSeqs selfId ⟨[], lsdb0⟩ msgs a ∧
          ∀ x ∈ acceptedSeqs selfId ⟨[], lsdb0⟩ msgs a, x ≤ m)) ∧
    (∀ (selfId : IPv4) (st : RouterLSAState) (adv : IPv4) (seq : Nat)
        (body : Str),
      (adv = selfId ∨
        ∃ m, lookupA st.router_lsa_num adv = some m ∧ seq ≤ m) →
      processLSA selfId st adv seq body = (st, false, none)) := by
  constructor
  · intro selfId lsdb0 msgs a
    have h := lsa_seq_invariant selfId msgs ⟨[], lsdb0⟩ a
    exact ⟨fun he => by rw [h.1 he]; rfl, h.2.2⟩
  · exact processLSA_drop

/-- Witness for C5: after accepting `(2.2.2.2, 5)` from the empty map the
stored number is 5, and a stale `(2.2.2.2, 4)` against that state is a
complete no-op. -/
theorem claim_C5_lsa_monotonic_drop_witness :
    lookupA (processLSAList ⟨1, 1, 1, 1⟩ ⟨[], []⟩
        [(⟨2, 2, 2, 2⟩, 5, "3.3.3.3, 2, Gi0/1".data)]).router_lsa_num
      ⟨2, 2, 2, 2⟩ = some 5 ∧
    processLSA ⟨1, 1, 1, 1⟩ ⟨[(⟨2, 2, 2, 2⟩, 5)], []⟩ ⟨2, 2, 2, 2⟩ 4
        "3.3.3.3, 2, Gi0/1".data =
      (⟨[(⟨2, 2, 2, 2⟩, 5)], []⟩, false, none) := by
  constructor
  · obtain ⟨m, hm, hmem, -⟩ :=
      (claim_C5_lsa_monotonic_drop.1 ⟨1, 1, 1, 1⟩ []
        [(⟨2, 2, 2, 2⟩, 5, "3.3.3.3, 2, Gi0/1".data)] ⟨2, 2, 2, 2⟩).2
        (by decide)
    have he : acceptedSeqs ⟨1, 1, 1, 1⟩ ⟨[], []⟩
        [(⟨2, 2, 2, 2⟩, 5, "3.3.3.3, 2, Gi0/1".data)] ⟨2, 2, 2, 2⟩ = [5] := by
      decide
    rw [he] at hmem
    simp at hmem
    rw [hmem] at hm
    exact hm
  · exact claim_C5_lsa_monotonic_drop.2 ⟨1, 1, 1, 1⟩
      ⟨[(⟨2, 2, 2, 2⟩, 5)], []⟩ ⟨2, 2, 2, 2⟩ 4 _
      (Or.inr ⟨5, rfl, by omega⟩)

section RouteAlgProofs

variable {α ι : Type} [DecidableEq α]

theorem lookupA_map_val {β γ : Type} (g : List (α × β)) (f : α → γ) (n : α) :
    lookupA (g.map fun p => (p.1, f p.1)) n = (lookupA g n).map fun _ => f n := by
  induction g with
  | nil => rfl
  | cons p rest ih =>
    obtain ⟨k, v⟩ := p
    by_cases h : k = n <;> simp [lookupA, h, ih]

theorem lookupA_map_const {β γ : Type} (g : List (α × β)) (v : γ) (n : α) :
    lookupA (g.map fun p => (p.1, v)) n = (lookupA g n).map fun _ => v := by
  induction g with
  | nil => rfl
  | cons p rest ih =>
    obtain ⟨k, w⟩ := p
    by_cases h : k = n <;> simp [lookupA, h, ih]

theorem dGet_setA_same (D : List (α × WithTop Nat)) (k : α) (v : WithTop Nat) :
    dGet (setA D k v) k = v := by
  simp [dGet, lookupA_setA_same]

theorem dGet_setA_ne (D : List (α × WithTop Nat)) (k n : α) (v : WithTop Nat)
    (h : n ≠ k) : dGet (setA D k v) n = dGet D n := by
  simp [dGet, lookupA_setA_ne _ _ _ _ h]

theorem pGet_setA_same (paths : List (α × List (α × ι))) (k : α)
    (v : List (α × ι)) : pGet (setA paths k v) k = v := by
  simp [pGet, lookupA_setA_same]

theorem pGet_setA_ne (paths : List (α × List (α × ι))) (k n : α)
    (v : List (α × ι)) (h : n ≠ k) : pGet (setA paths k v) n = pGet paths n := by
  simp [pGet, lookupA_setA_ne _ _ _ _ h]

theorem relaxEdges_inv (g : List (α × List (α × Nat × ι))) (selfId : α)
    (np : List α) (w : α) (dw : WithTop Nat) (pathw : List (α × ι))
    (hselfnp : selfId ∈ np) (hdw : dw ≠ ⊤ → Reach g selfId w) :
    ∀ (es : List (α × Nat × ι)) (D : List (α × WithTop Nat))
      (paths : List (α × List (α × ι))),
      (∀ e ∈ es, e ∈ (lookupA g w).getD []) →
      dGet D selfId = 0 → pGet paths selfId = [] →
      (∀ n, dGet D n ≠ ⊤ → Reach g selfId n) →
      (∀ n, pGet paths n ≠ [] → n ≠ selfId ∧ Reach g selfId n) →
      dGet (relaxEdges np dw pathw es (D, paths)).1 selfId = 0 ∧
      pGet (relaxEdges np dw pathw es (D, paths)).2 selfId = [] ∧
      (∀ n, dGet (relaxEdges np dw pathw es (D, paths)).1 n ≠ ⊤ →
        Reach g selfId n) ∧
      (∀ n, pGet (relaxEdges np dw pathw es (D, paths)).2 n ≠ [] →
        n ≠ selfId ∧ Reach g selfId n) := by
  intro es
  induction es with
  | nil =>
    intro D paths _ h1 h2 h3 h4
    exact ⟨h1, h2, h3, h4⟩
  | cons e rest ih =>
    obtain ⟨nb, c, iface⟩ := e
    intro D paths hmem h1 h2 h3 h4
    by_cases hnp : nb ∉ np
    · by_cases hlt : dw + (c : WithTop Nat) < dGet D nb
      · have hnbself : nb ≠ selfId := fun he => hnp (he ▸ hselfnp)
        have hndne : dw + (c : WithTop Nat) ≠ ⊤ :=
          ne_top_of_lt (lt_of_lt_of_le hlt le_top)
        have hdwne : dw ≠ ⊤ := fun he => hndne (by rw [he, top_add])
        have hreachnb : Reach g selfId nb :=
          Relation.ReflTransGen.tail (hdw hdwne)
            ⟨c, iface, hmem _ (List.mem_cons_self _ _)⟩
        have hstep : relaxEdges np dw pathw ((nb, c, iface) :: rest) (D, paths) =
            relaxEdges np dw pathw rest
              (setA D nb (dw + (c : WithTop Nat)),
               setA paths nb (pathw ++ [(nb, iface)])) := by
          simp [relaxEdges, hnp, hlt]
        rw [hstep]
        refine ih _ _ (fun e he => hmem e (List.mem_cons_of_mem _ he)) ?_ ?_ ?_ ?_
        · rw [dGet_setA_ne _ _ _ _ hnbself.symm]; exact h1
        · rw [pGet_setA_ne _ _ _ _ hnbself.symm]; exact h2
        · intro n hn
          by_cases hne : n = nb
          · subst hne; exact hreachnb
          · rw [dGet_setA_ne _ _ _ _ hne] at hn; exact h3 n hn
        · intro n hn
          by_cases hne : n = nb
          · subst hne; exact ⟨hnbself, hreachnb⟩
          · rw [pGet_setA_ne _ _ _ _ hne] at hn; exact h4 n hn
      · have hstep : relaxEdges np dw pathw ((nb, c, iface) :: rest) (D, paths) =
            relaxEdges np dw pathw rest (D, paths) := by
          simp [relaxEdges, hnp, hlt]
        rw [hstep]
        exact ih _ _ (fun e he => hmem e (List.mem_cons_of_mem _ he)) h1 h2 h3 h4
    · have hstep : relaxEdges np dw pathw ((nb, c, iface) :: rest) (D, paths) =
          relaxEdges np dw pathw rest (D, paths) := by
        simp [relaxEdges, hnp]
      rw [hstep]
      exact ih _ _ (fun e he => hmem e (List.mem_cons_of_mem _ he)) h1 h2 h3 h4

theorem dijkstraStep_inv (g : List (α × List (α × Nat × ι))) (selfId : α)
    (st : DijkstraState α ι) (w : α) (h : DijkInv g selfId st) :
    DijkInv g selfId (dijkstraStep g st w) := by
  obtain ⟨h0, h1, h2, h3, h4⟩ := h
  have hres := relaxEdges_inv g selfId (w :: st.nprime) w (dGet st.D w)
    (pGet st.paths w) (List.mem_cons_of_mem _ h0) (h3 w)
    ((lookupA g w).getD []) st.D st.paths (fun _ he => he) h1 h2 h3 h4
  exact ⟨List.mem_cons_of_mem _ h0, hres.1, hres.2.1, hres.2.2.1, hres.2.2.2⟩

theorem dijkstraLoop_inv (g : List (α × List (α × Nat × ι))) (selfId : α) :
    ∀ (fuel : Nat) (st : DijkstraState α ι), DijkInv g selfId st →
      DijkInv g selfId (dijkstraLoop g fuel st) := by
  intro fuel
  induction fuel with
  | zero => intro st h; exact h
  | succ fuel ih =>
    intro st h
    rw [dijkstraLoop]
    by_cases hlen : st.nprime.length < g.length
    · rw [if_pos hlen]
      rcases hmin : minUnsettled st.D st.nprime with _ | ⟨w, v⟩
      · exact h
      · exact ih _ (dijkstraStep_inv g selfId st w h)
    · rw [if_neg hlen]; exact h

theorem initNeighbors_inv (g : List (α × List (α × Nat × ι))) (selfId : α) :
    ∀ (es : List (α × Nat × ι)) (D : List (α × WithTop Nat))
      (paths : List (α × List (α × ι))),
      (∀ e ∈ es, e ∈ (lookupA g selfId).getD []) →
      (∀ e ∈ es, e.1 ≠ selfId) →
      dGet D selfId = 0 → pGet paths selfId = [] →
      (∀ n, dGet D n ≠ ⊤ → Reach g selfId n) →
      (∀ n, pGet paths n ≠ [] → n ≠ selfId ∧ Reach g selfId n) →
      dGet (initNeighbors es (D, paths)).1 selfId = 0 ∧
      pGet (initNeighbors es (D, paths)).2 selfId = [] ∧
      (∀ n, dGet (initNeighbors es (D, paths)).1 n ≠ ⊤ → Reach g selfId n) ∧
      (∀ n, pGet (initNeighbors es (D, paths)).2 n ≠ [] →
        n ≠ selfId ∧ Reach g selfId n) := by
  intro es
  induction es with
  | nil =>
    intro D paths _ _ h1 h2 h3 h4
    exact ⟨h1, h2, h3, h4⟩
  | cons e rest ih =>
    obtain ⟨nb, c, iface⟩ := e
    intro D paths hsub hloop h1 h2 h3 h4
    have hnbself : nb ≠ selfId := hloop _ (List.mem_cons_self _ _)
    have hreachnb : Reach g selfId nb :=
      Relation.ReflTransGen.single ⟨c, iface, hsub _ (List.mem_cons_self _ _)⟩
    have hstep : initNeighbors ((nb, c, iface) :: rest) (D, paths) =
        initNeighbors rest
          (setA D nb (c : WithTop Nat), setA paths nb [(nb, iface)]) := rfl
    rw [hstep]
    refine ih _ _ (fun e he => hsub e (List.mem_cons_of_mem _ he))
      (fun e he => hloop e (List.mem_cons_of_mem _ he)) ?_ ?_ ?_ ?_
    · rw [dGet_setA_ne _ _ _ _ hnbself.symm]; exact h1
    · rw [pGet_setA_ne _ _ _ _ hnbself.symm]; exact h2
    · intro n hn
      by_cases hne : n = nb
      · subst hne; exact hreachnb
      · rw [dGet_setA_ne _ _ _ _ hne] at hn; exact h3 n hn
    · intro n hn
      by_cases hne : n = nb
      · subst hne; exact ⟨hnbself, hreachnb⟩
      · rw [pGet_setA_ne _ _ _ _ hne] at hn; exact h4 n hn

theorem dijkstraFinal_inv (selfId : α) (lsdb : List (α × List (α × Nat × ι)))
    (hnoloop : ∀ e ∈ (lookupA (buildGraph lsdb) selfId).getD [],
      e.1 ≠ selfId) :
    DijkInv (buildGraph lsdb) selfId (dijkstraFinal selfId lsdb) := by
  have hp0 : ∀ n, pGet ((buildGraph lsdb).map
      fun p => (p.1, ([] : List (α × ι)))) n = [] := by
    intro n
    rw [pGet, lookupA_map_const]
    cases lookupA (buildGraph lsdb) n <;> rfl
  have hD0 : ∀ n, dGet (setA ((buildGraph lsdb).map
      fun p => (p.1, (⊤ : WithTop Nat))) selfId 0) n ≠ ⊤ →
      Reach (buildGraph lsdb) selfId n := by
    intro n hn
    by_cases h : n = selfId
    · subst h; exact Relation.ReflTransGen.refl
    · rw [dGet_setA_ne _ _ _ _ h, dGet, lookupA_map_const] at hn
      rcases hc : lookupA (buildGraph lsdb) n with _ | v <;> simp [hc] at hn
  have hinit := initNeighbors_inv (buildGraph lsdb) selfId
    ((lookupA (buildGraph lsdb) selfId).getD [])
    (setA ((buildGraph lsdb).map fun p => (p.1, (⊤ : WithTop Nat))) selfId 0)
    ((buildGraph lsdb).map fun p => (p.1, ([] : List (α × ι))))
    (fun _ he => he) hnoloop (dGet_setA_same _ _ _) (hp0 selfId) hD0
    (fun n hn => absurd (hp0 n) hn)
  exact dijkstraLoop_inv (buildGraph lsdb) selfId (buildGraph lsdb).length _
    ⟨List.mem_singleton.mpr rfl, hinit.1, hinit.2.1, hinit.2.2.1,
      hinit.2.2.2⟩

/-- C10: after `run_route_alg`, the forwarding table has an entry for every
node of the graph built from the LSDB; the router's own entry is
`(None, 0)`; every node unreachable from the router is mapped to
`(None, +∞)`; an entry with a non-`None` interface only ever belongs to a
reachable node other than the router (so the empty-path entries are exactly
the router itself and unreachable nodes); and a longest-prefix match that
selects an interface-`None` entry yields `None` as the forwarding
interface. Hypotheses: the router is a node of its own graph (otherwise
line 152 raises `KeyError`) and advertises no self-loop edge. -/
theorem claim_C10_route_alg_forwarding_table (selfId : NetKey)
    (lsdb : List (NetKey × List (NetKey × Nat × Str)))
    (hself : lookupA (buildGraph lsdb) selfId ≠ none)
    (hnoloop : ∀ e ∈ (lookupA (buildGraph lsdb) selfId).getD [],
      e.1 ≠ selfId) :
    (∀ n, lookupA (buildGraph lsdb) n ≠ none →
      lookupA (runRouteAlg selfId lsdb) n ≠ none) ∧
    lookupA (runRouteAlg selfId lsdb) selfId = some (none, 0) ∧
    (∀ n, lookupA (buildGraph lsdb) n ≠ none →
      ¬ Reach (buildGraph lsdb) selfId n →
      lookupA (runRouteAlg selfId lsdb) n = some (none, ⊤)) ∧
    (∀ n i c, lookupA (runRouteAlg selfId lsdb) n = some (some i, c) →
      n ≠ selfId ∧ Reach (buildGraph lsdb) selfId n) ∧
    (∀ (dest : IPv4) (k : NetKey) (c : WithTop Nat),
      longestPrefixMatch dest ((runRouteAlg selfId lsdb).map Prod.fst) =
        some k →
      lookupA (runRouteAlg selfId lsdb) k = some (none, c) →
      (lookupA (runRouteAlg selfId lsdb) k).map Prod.fst = some none) := by
  obtain ⟨h0, h1, h2, h3, h4⟩ := dijkstraFinal_inv selfId lsdb hnoloop
  have hlook : ∀ n, lookupA (runRouteAlg selfId lsdb) n =
      (lookupA (buildGraph lsdb) n).map
        (fun _ => (headIface (pGet (dijkstraFinal selfId lsdb).paths n),
          dGet (dijkstraFinal selfId lsdb).D n)) := by
    intro n
    unfold runRouteAlg forwardingTableOf
    exact lookupA_map_val (buildGraph lsdb)
      (fun a => (headIface (pGet (dijkstraFinal selfId lsdb).paths a),
        dGet (dijkstraFinal selfId lsdb).D a)) n
  refine ⟨?_, ?_, ?_, ?_, ?_⟩
  · intro n hn
    rw [hlook n]
    cases hcase : lookupA (buildGraph lsdb) n with
    | none => exact absurd hcase hn
    | some v => simp
  · rw [hlook selfId]
    cases hcase : lookupA (buildGraph lsdb) selfId with
    | none => exact absurd hcase hself
    | some v => simp [h1, h2, headIface]
  · intro n hn hnr
    have hpn : pGet (dijkstraFinal selfId lsdb).paths n = [] := by
      by_contra hh
      exact hnr (h4 n hh).2
    have hdn : dGet (dijkstraFinal selfId lsdb).D n = ⊤ := by
      by_contra hh
      exact hnr (h3 n hh)
    rw [hlook n]
    cases hcase : lookupA (buildGraph lsdb) n with
    | none => exact absurd hcase hn
    | some v => simp [hpn, hdn, headIface]
  · intro n i c hfc
    rw [hlook n] at hfc
    cases hcase : lookupA (buildGraph lsdb) n with
    | none => rw [hcase] at hfc; exact absurd hfc (by simp)
    | some v =>
      rw [hcase] at hfc
      simp only [Option.map_some', Option.some.injEq, Prod.mk.injEq] at hfc
      apply h4 n
      intro hp
      rw [hp] at hfc
      exact absurd hfc.1 (by simp [headIface])
  · intro dest k c _ hk
    rw [hk]
    rfl

end RouteAlgProofs

/-- Witness for C10 on a one-router LSDB advertising its attached subnet:
the router's own forwarding-table entry is `(None, 0)`. -/
theorem claim_C10_route_alg_forwarding_table_witness :
    lookupA (runRouteAlg (NetKey.host ⟨1, 1, 1, 1⟩)
        [(NetKey.host ⟨1, 1, 1, 1⟩,
          [(NetKey.cidr ⟨127, 0, 0, 0⟩ 24, 0, "Gi0/1".data)])])
      (NetKey.host ⟨1, 1, 1, 1⟩) = some (none, 0) :=
  (claim_C10_route_alg_forwarding_table (NetKey.host ⟨1, 1, 1, 1⟩)
    [(NetKey.host ⟨1, 1, 1, 1⟩,
      [(NetKey.cidr ⟨127, 0, 0, 0⟩ 24, 0, "Gi0/1".data)])]
    (by decide) (by decide)).2.1

end NetSim
